import Mathlib

/-!
Verification of the NativeQL metadata-driven ORM core: a shallow embedding of
the metadata registry, the SQL generator, the result materializer and the
persistence orchestrator, translated from `src/enums.ts`, `src/metadata.ts`,
`src/sql-generator.ts` and `src/data-source.ts`.

JavaScript dynamic values are modelled by the inductive type `JSVal`; entity
instances are `JSVal.obj` association lists; filter operator nodes
(`{operator, value}` records) are `JSVal.opNode`.  Operator tags are kept as
raw strings because the `OperatorType` enum compares by string value.
-/

namespace NativeQL

/-- A JavaScript runtime value, as far as the ORM core observes it.
`opNode op v` stands for an operator record `{operator: op, value: v}`;
`date t` stands for a `Date` holding millisecond timestamp `t`. -/
inductive JSVal where
  | undef
  | null
  | bool (b : Bool)
  | num (n : Int)
  | str (s : String)
  | arr (elems : List JSVal)
  | date (t : Int)
  | obj (fields : List (String × JSVal))
  | opNode (op : String) (val : JSVal)

/-- JavaScript truthiness (`undefined`, `null`, `false`, `0`, `''` are falsy). -/
def truthy : JSVal → Bool
  | .undef => false
  | .null => false
  | .bool b => b
  | .num n => n != 0
  | .str s => s != ""
  | _ => true

/-- `typeof v === 'object'` (note: in JavaScript `typeof null` is `'object'`). -/
def isObjectType : JSVal → Bool
  | .null => true
  | .arr _ => true
  | .date _ => true
  | .obj _ => true
  | .opNode _ _ => true
  | _ => false

/-- Primitive values compare structurally under `===`; object kinds (arrays,
objects, dates, operator records) compare by reference. -/
def isPrimitive : JSVal → Bool
  | .undef => true
  | .null => true
  | .bool _ => true
  | .num _ => true
  | .str _ => true
  | _ => false

/-- JavaScript `===` between a freshly constructed value and a stored one:
primitives compare structurally; two separately constructed object references
are never identical, so object kinds compare to `false` here. -/
def strictEq : JSVal → JSVal → Bool
  | .undef, .undef => true
  | .null, .null => true
  | .bool a, .bool b => a == b
  | .num a, .num b => a == b
  | .str a, .str b => a == b
  | _, _ => false

/-- `val === undefined`. -/
def isUndef : JSVal → Bool
  | .undef => true
  | _ => false

/-- `val === null`. -/
def isNull : JSVal → Bool
  | .null => true
  | _ => false

/-- `Array.isArray(val)`. -/
def isArray : JSVal → Bool
  | .arr _ => true
  | _ => false

/-- `val instanceof Date`. -/
def isDate : JSVal → Bool
  | .date _ => true
  | _ => false

/-- `typeof val === 'string'`. -/
def isStringVal : JSVal → Bool
  | .str _ => true
  | _ => false

/-- Property read on a record of fields (`undefined` when absent). -/
def lookupField : List (String × JSVal) → String → JSVal
  | [], _ => .undef
  | (k', v) :: rest, k => if k' = k then v else lookupField rest k

/-- Property write on a record of fields: overwrite in place, else append. -/
def setField : List (String × JSVal) → String → JSVal → List (String × JSVal)
  | [], k, v => [(k, v)]
  | (k', v') :: rest, k, v =>
      if k' = k then (k, v) :: rest else (k', v') :: setField rest k v

/-- `o[k]` — property access on an object value (`undefined` otherwise). -/
def getProp : JSVal → String → JSVal
  | .obj fs, k => lookupField fs k
  | _, _ => (.undef)

/-- `o[k] = v` — property assignment on an object value (no-op otherwise). -/
def setProp : JSVal → String → JSVal → JSVal
  | .obj fs, k, v => .obj (setField fs k v)
  | x, _, _ => x

/-- The `operator` property of a value (used by `buildConditions`). -/
def getOperatorProp : JSVal → JSVal
  | .opNode op _ => .str op
  | .obj fs => lookupField fs "operator"
  | _ => (.undef)

/-- The `value` property of an operator record. -/
def getValueProp : JSVal → JSVal
  | .opNode _ v => v
  | .obj fs => lookupField fs "value"
  | _ => (.undef)

/-- The guard `value && typeof value === 'object' && value.operator`. -/
def isOperatorNode (v : JSVal) : Bool :=
  truthy v && isObjectType v && truthy (getOperatorProp v)

/-- `value[i]` — array indexing with `undefined` out of range (used by the
`Between` operator on `value.value[0]` and `value.value[1]`). -/
def jsIndex : JSVal → Nat → JSVal
  | .arr l, i => (l.get? i).getD .undef
  | _, _ => (.undef)

/-- Models `Date.prototype.toISOString` as an injective rendering of the
timestamp; the concrete ISO-8601 format is a platform detail the ORM core
never inspects. -/
def dateToISOString (t : Int) : String :=
  "@" ++ toString t ++ "Z"

/-- Partial model of `new Date(string)` parsing (a platform builtin): only the
timestamps produced by `dateToISOString` are decoded; the core never inspects
the result. -/
def parseDateString (s : String) : Int :=
  ((s.dropWhile (· == '@')).takeWhile (· != 'Z')).toInt?.getD 0

mutual

/-- String coercion `String(v)` / template-literal interpolation.  Arrays
join their elements with commas (`null`/`undefined` elements render empty);
plain objects render as `[object Object]`. -/
def jsToString : JSVal → String
  | .undef => "undefined"
  | .null => "null"
  | .bool b => if b then "true" else "false"
  | .num n => toString n
  | .str s => s
  | .date t => dateToISOString t
  | .arr l => String.intercalate "," (jsToStringElems l)
  | .obj _ => "[object Object]"
  | .opNode _ _ => "[object Object]"

/-- Element renderings for array joining (`null`/`undefined` render empty). -/
def jsToStringElems : List JSVal → List String
  | [] => []
  | .undef :: rest => "" :: jsToStringElems rest
  | .null :: rest => "" :: jsToStringElems rest
  | e :: rest => jsToString e :: jsToStringElems rest

end

/-- `Array.prototype.join(sep)`: elements coerce via `String(...)` except
`null`/`undefined`, which render empty. -/
def jsArrayJoin (sep : String) : JSVal → String
  | .arr l => String.intercalate sep (jsToStringElems l)
  | v => jsToString v

mutual

/-- Model of `JSON.stringify` on the modelled value fragment (string escaping
is not modelled; `undefined` only occurs inside arrays, where it renders as
`null`; `undefined`-valued object fields are dropped; `Date` stringifies via
its ISO string). -/
def jsonStringify : JSVal → String
  | .undef => "null"
  | .null => "null"
  | .bool b => if b then "true" else "false"
  | .num n => toString n
  | .str s => "\"" ++ s ++ "\""
  | .date t => "\"" ++ dateToISOString t ++ "\""
  | .arr l => "[" ++ String.intercalate "," (jsonStringifyElems l) ++ "]"
  | .obj fs => "\x7b" ++ String.intercalate "," (jsonStringifyFields fs) ++ "\x7d"
  | .opNode op v => "\x7b\"operator\":\"" ++ op ++ "\",\"value\":" ++ jsonStringify v ++ "\x7d"

/-- Array elements under `JSON.stringify`. -/
def jsonStringifyElems : List JSVal → List String
  | [] => []
  | e :: rest => jsonStringify e :: jsonStringifyElems rest

/-- Object fields under `JSON.stringify` (`undefined` fields are dropped). -/
def jsonStringifyFields : List (String × JSVal) → List String
  | [] => []
  | (_, .undef) :: rest => jsonStringifyFields rest
  | (k, v) :: rest => ("\"" ++ k ++ "\":" ++ jsonStringify v) :: jsonStringifyFields rest

end

/-- Partial model of `JSON.parse` (a platform builtin): atoms decode, other
texts are treated as decode failures.  The claims under verification never
exercise a successful composite parse. -/
def jsonParse (s : String) : Option JSVal :=
  if s = "null" then some .null
  else if s = "true" then some (.bool true)
  else if s = "false" then some (.bool false)
  else match s.toInt? with
    | some n => some (.num n)
    | none => none

/-! ## Metadata model (`src/enums.ts`, `src/metadata.ts`)

Entity classes are identified by numeric handles (`target : Nat`), standing
for the identity-compared class references of the registry. -/

/-- `ColumnType` from `src/enums.ts`. -/
inductive ColumnType where
  | string | number | boolean | integer | simpleArray | simpleJson | text | dateTime | date
  deriving Repr, DecidableEq

/-- `RelationType` from `src/enums.ts`. -/
inductive RelationType where
  | oneToOne | oneToMany | manyToOne | manyToMany
  deriving Repr, DecidableEq

/-- `ListenerType` from `src/enums.ts`. -/
inductive ListenerType where
  | beforeInsert | afterInsert | beforeUpdate | afterUpdate
  | beforeRemove | afterRemove | afterLoad
  deriving Repr, DecidableEq

/-- A bidirectional value transformer (`ValueTransformer` in `src/types`);
the source methods are named `to` and `from`, reserved words here. -/
structure Transformer where
  to_ : JSVal → JSVal
  from_ : JSVal → JSVal

/-- `ColumnOptions` (the fields the core consults). -/
structure ColumnOptions where
  name : Option String := none
  type : Option ColumnType := none
  primary : Bool := false
  generated : Bool := false
  nullable : Option Bool := none
  transformer : Option Transformer := none

/-- `ColumnMetadata`: `mode` distinguishes timestamp/soft-delete/version
columns, mirroring the string union in `src/metadata.ts`. -/
structure ColumnMeta where
  target : Nat
  propertyName : String
  options : ColumnOptions
  mode : Option String := none

/-- `EntityMetadata`. -/
structure EntityMeta where
  target : Nat
  name : String
  tableName : String
  deriving Repr, DecidableEq

/-- The lazily-evaluated related-type reference of a relation. `cls t` is a
direct class reference; `thunk (some t)` is an arrow function that resolves to
class `t`; `thunk none` is a resolver that throws (or a value that is not a
registered class), observable only as "resolves to no registered table". -/
inductive TypeRef where
  | cls (t : Nat)
  | thunk (result : Option Nat)
  deriving Repr, DecidableEq

/-- The `typeof relatedClass === 'function' && !relatedClass.prototype`
resolution followed by the `try`/`catch`: the observable outcome is the class
the reference names, or nothing. -/
def resolveTypeRef : TypeRef → Option Nat
  | .cls t => some t
  | .thunk r => r

/-- `RelationOptions` (the fields the core consults). -/
structure RelationOptions where
  cascade : Option (Bool ⊕ List String) := none
  onDelete : Option String := none

/-- `RelationMetadata`.  A function-valued `inverseSide` is modelled by the
property name its proxy evaluation yields. -/
structure RelationMeta where
  target : Nat
  propertyName : String
  relationType : RelationType
  type : TypeRef
  inverseSide : Option String := none
  options : Option RelationOptions := none
  joinTable : Bool := false
  joinTableName : Option String := none
  joinColumn : Bool := false
  joinColumnName : Option String := none

/-- `JoinTableMetadata`. -/
structure JoinTableMeta where
  target : Nat
  propertyName : String
  name : Option String := none
  deriving Repr, DecidableEq

/-- `EntityListenerMetadata`. -/
structure ListenerMeta where
  target : Nat
  propertyName : String
  type : ListenerType
  deriving Repr, DecidableEq

/-- `IndexMetadata`. -/
structure IndexMeta where
  target : Nat
  name : Option String := none
  columns : List String
  unique : Bool := false
  deriving Repr, DecidableEq

/-- `MetadataArgsStorage`. -/
structure Storage where
  columns : List ColumnMeta := []
  tables : List EntityMeta := []
  relations : List RelationMeta := []
  indices : List IndexMeta := []
  entityListeners : List ListenerMeta := []
  joinTables : List JoinTableMeta := []

/-- `findTable`: identity-keyed lookup. -/
def Storage.findTable (s : Storage) (target : Nat) : Option EntityMeta :=
  s.tables.find? (·.target = target)

/-- `findColumns`. -/
def Storage.findColumns (s : Storage) (target : Nat) : List ColumnMeta :=
  s.columns.filter (·.target = target)

/-- `findRelations`. -/
def Storage.findRelations (s : Storage) (target : Nat) : List RelationMeta :=
  s.relations.filter (·.target = target)

/-- `findListeners`. -/
def Storage.findListeners (s : Storage) (target : Nat) (ty : ListenerType) : List ListenerMeta :=
  s.entityListeners.filter (fun l => l.target = target ∧ l.type = ty)

/-- JavaScript `x.name || fallback` on an optional string (the empty string is
falsy and also falls back). -/
def orName (o : Option String) (fallback : String) : String :=
  match o with
  | some s => if s = "" then fallback else s
  | none => fallback

/-- `col.options.name || col.propertyName` — the SQL name of a column. -/
def colSqlName (c : ColumnMeta) : String :=
  orName c.options.name c.propertyName

/-! ## SQL generator (`src/sql-generator.ts`)

A generated statement is a pair of SQL text and positional parameters.
Functions that can `throw` return `Except String`; the error string is the
thrown message (`TypeError` marks a crash on a malformed operator value). -/

/-- One conjunct of `buildConditions` for key `key` and filter value `v`
(`sql-generator.ts:297-367`).  The `switch` on `value.operator` is translated
as an if-chain in source case order over the `OperatorType` *string* values;
note that `OperatorType.NotEqual` and `OperatorType.Not` are both the string
`'NOT'`, so the `NotEqual` case is reached first and the later `Not` case is
unreachable. -/
def condFor (key : String) (v : JSVal) : Except String (String × List JSVal) :=
  if isOperatorNode v then
    match getOperatorProp v with
    | .str op =>
      let val := getValueProp v
      if op = "LIKE" then .ok (key ++ " LIKE ?", [val])
      else if op = "IN" then
        match val with
        | .arr items =>
            .ok (key ++ " IN (" ++ String.intercalate ", " (items.map fun _ => "?") ++ ")", items)
        | _ => .error "TypeError: value.value.map is not a function"
      else if op = "NOT" then
        -- `case OperatorType.NotEqual:` — both branches of its inner `if`
        -- push `value.value` and emit `!= ?`
        .ok (key ++ " != ?", [val])
      else if op = "LT" then .ok (key ++ " < ?", [val])
      else if op = "GT" then .ok (key ++ " > ?", [val])
      else if op = "LTE" then .ok (key ++ " <= ?", [val])
      else if op = "GTE" then .ok (key ++ " >= ?", [val])
      else if op = "BETWEEN" then
        .ok (key ++ " BETWEEN ? AND ?", [jsIndex val 0, jsIndex val 1])
      else if op = "IS_NULL" then .ok (key ++ " IS NULL", [])
      else if op = "EQUAL" then .ok (key ++ " = ?", [val])
      else if op = "ILIKE" then .ok (key ++ " LIKE ?", [val])
      else if op = "RAW" then .ok (key ++ " " ++ jsToString val, [])
      else if op = "NOT" then
        -- `case OperatorType.Not:` — dead code: shadowed by the NotEqual
        -- case above because both enum members hold the string 'NOT'
        match val with
        | .opNode innerOp innerVal =>
            if innerOp = "IN" then
              match innerVal with
              | .arr items =>
                  .ok (key ++ " NOT IN (" ++
                    String.intercalate ", " (items.map fun _ => "?") ++ ")", items)
              | _ => .error "TypeError: innerVal.map is not a function"
            else if innerOp = "LIKE" then .ok (key ++ " NOT LIKE ?", [innerVal])
            else if innerOp = "IS_NULL" then .ok (key ++ " IS NOT NULL", [])
            else .ok (key ++ " != ?", [val])
        | _ => .ok (key ++ " != ?", [val])
      else
        -- no `case` matched: control falls out of the `switch` to the
        -- trailing `values.push(value); return `${key} = ?``
        .ok (key ++ " = ?", [v])
    | _ =>
      -- a non-string (truthy) `operator` tag matches no `case`
      .ok (key ++ " = ?", [v])
  else .ok (key ++ " = ?", [v])

/-- `buildConditions` (`sql-generator.ts:297-370`): AND-combine one conjunct
per key, parameters in key order. -/
def buildConditions (whereObj : List (String × JSVal)) : Except String (String × List JSVal) := do
  let parts ← whereObj.mapM fun kv => condFor kv.1 kv.2
  return (String.intercalate " AND " (parts.map (·.1)), (parts.map (·.2)).flatten)

namespace SqlGenerator

/-- `SqlGenerator.insert` (`sql-generator.ts:15-22`). -/
def insert (metadata : EntityMeta) (columns : List ColumnMeta) (entity : JSVal) :
    String × List JSVal :=
  let columnNames := columns.map colSqlName
  let placeholders := String.intercalate ", " (columnNames.map fun _ => "?")
  let values := columns.map fun c => getProp entity c.propertyName
  ("INSERT INTO " ++ metadata.tableName ++ " (" ++ String.intercalate ", " columnNames ++
     ") VALUES (" ++ placeholders ++ ")", values)

/-- `SqlGenerator.delete` (`sql-generator.ts:220-233`).  `none` models an
absent (falsy) `where`; note that an *empty object* is truthy in JavaScript
and therefore arrives as `some []`. -/
def delete (metadata : EntityMeta) (whereObj : Option (List (String × JSVal))) :
    Except String (String × List JSVal) :=
  match whereObj with
  | some w => do
      let (clause, values) ← buildConditions w
      return ("DELETE FROM " ++ metadata.tableName ++ " WHERE " ++ clause, values)
  | none => .error "DELETE requires a WHERE clause (for safety in this simple ORM)"

/-- `SqlGenerator.update` (`sql-generator.ts:238-258`). -/
def update (metadata : EntityMeta) (values : List (String × JSVal))
    (whereObj : Option (List (String × JSVal))) : Except String (String × List JSVal) :=
  let setClauses := values.map fun kv => kv.1 ++ " = ?"
  let setParams := values.map (·.2)
  let base := "UPDATE " ++ metadata.tableName ++ " SET " ++ String.intercalate ", " setClauses
  match whereObj with
  | some w => do
      let (clause, whereValues) ← buildConditions w
      return (base ++ " WHERE " ++ clause, setParams ++ whereValues)
  | none => .error "UPDATE requires a WHERE clause"

/-- `SqlGenerator.upsert` (`sql-generator.ts:263-279`). -/
def upsert (metadata : EntityMeta) (columns : List ColumnMeta) (entity : JSVal)
    (conflictPaths : List String) : String × List JSVal :=
  let columnNames := columns.map colSqlName
  let placeholders := String.intercalate ", " (columnNames.map fun _ => "?")
  let values := columns.map fun c => getProp entity c.propertyName
  let base := "INSERT INTO " ++ metadata.tableName ++ " (" ++
    String.intercalate ", " columnNames ++ ") VALUES (" ++ placeholders ++ ")"
  let query :=
    if conflictPaths.length > 0 then
      base ++ " ON CONFLICT(" ++ String.intercalate ", " conflictPaths ++ ") DO UPDATE SET " ++
        String.intercalate ", "
          ((columnNames.filter fun col => !conflictPaths.contains col).map
            fun col => col ++ "=excluded." ++ col)
    else base
  (query, values)

/-- `SqlGenerator.count` (`sql-generator.ts:284-295`). -/
def count (metadata : EntityMeta) (whereObj : Option (List (String × JSVal))) :
    Except String (String × List JSVal) :=
  match whereObj with
  | some w => do
      let (clause, values) ← buildConditions w
      return ("SELECT COUNT(*) as count FROM " ++ metadata.tableName ++ " WHERE " ++ clause, values)
  | none => .ok ("SELECT COUNT(*) as count FROM " ++ metadata.tableName, [])

/-- `SqlGenerator.insertJunction` (`sql-generator.ts:212-215`). -/
def insertJunction (junctionTableName : String) (val1 val2 : JSVal) : String × List JSVal :=
  ("INSERT INTO " ++ junctionTableName ++ " VALUES (?, ?)", [val1, val2])

/-- `SqlGenerator.createJunctionTable` (`sql-generator.ts:195-207`), with the
source template literal's whitespace reproduced. -/
def createJunctionTable (metadata : EntityMeta) (relation : RelationMeta)
    (relatedMetadata : EntityMeta) : String :=
  let junctionTableName :=
    orName relation.joinTableName (metadata.tableName ++ "_" ++ relatedMetadata.tableName)
  let col1 := metadata.tableName ++ "Id"
  let col2 := relatedMetadata.tableName ++ "Id"
  "CREATE TABLE IF NOT EXISTS " ++ junctionTableName ++ " (\n            " ++
    col1 ++ " INTEGER, \n            " ++
    col2 ++ " INTEGER, \n            PRIMARY KEY(" ++ col1 ++ ", " ++ col2 ++
    "),\n            FOREIGN KEY (" ++ col1 ++ ") REFERENCES " ++ metadata.tableName ++
    "(id) ON DELETE CASCADE,\n            FOREIGN KEY (" ++ col2 ++ ") REFERENCES " ++
    relatedMetadata.tableName ++ "(id) ON DELETE CASCADE\n        )"

/-- `getType` (`sql-generator.ts:425-438`). -/
def getTypeSql : Option ColumnType → String
  | some .string => "TEXT"
  | some .simpleArray => "TEXT"
  | some .simpleJson => "TEXT"
  | some .text => "TEXT"
  | some .number => "INTEGER"
  | some .boolean => "INTEGER"
  | some .integer => "INTEGER"
  | some .dateTime => "INTEGER"
  | some .date => "TEXT"
  | none => "TEXT"

/-- The per-relation FK column definitions appended by `createTable`
(`sql-generator.ts:385-410`): for each owning to-one relation, an `INTEGER`
FK column and — when the related table resolves — a `FOREIGN KEY` clause
referencing the related table's literal `id` column. -/
def createTableRelationDefs (storage : Storage) (metadata : EntityMeta) : List String :=
  (storage.findRelations metadata.target).flatMap fun relation =>
    if relation.relationType = .manyToOne ∨
       (relation.relationType = .oneToOne ∧ relation.joinColumn) then
      let fkName := orName relation.joinColumnName (relation.propertyName ++ "Id")
      match (resolveTypeRef relation.type).bind (fun c => storage.findTable c) with
      | some relatedTable =>
          let fkClause := "FOREIGN KEY (" ++ fkName ++ ") REFERENCES " ++
            relatedTable.tableName ++ "(id)" ++
            (match relation.options.bind (·.onDelete) with
             | some action => " ON DELETE " ++ action
             | none => "")
          [fkName ++ " INTEGER", fkClause]
      | none => [fkName ++ " INTEGER"]
    else []

/-- `SqlGenerator.createTable` (`sql-generator.ts:375-413`). -/
def createTable (storage : Storage) (metadata : EntityMeta) (columns : List ColumnMeta) : String :=
  let columnDefs := columns.map fun col =>
    let d := colSqlName col ++ " " ++ getTypeSql col.options.type
    let d := if col.options.primary then d ++ " PRIMARY KEY" else d
    let d := if col.options.generated then d ++ " AUTOINCREMENT" else d
    if col.options.nullable = some false then d ++ " NOT NULL" else d
  "CREATE TABLE IF NOT EXISTS " ++ metadata.tableName ++ " (" ++
    String.intercalate ", " (columnDefs ++ createTableRelationDefs storage metadata) ++ ")"

/-- `SqlGenerator.createIndex` (`sql-generator.ts:418-423`). -/
def createIndex (metadata : EntityMeta) (index : IndexMeta) : String :=
  let columns := String.intercalate ", " index.columns
  let unique := if index.unique then "UNIQUE " else ""
  let indexName := orName index.name
    ("IDX_" ++ metadata.tableName ++ "_" ++ String.intercalate "_" index.columns)
  "CREATE " ++ unique ++ "INDEX IF NOT EXISTS " ++ indexName ++ " ON " ++
    metadata.tableName ++ " (" ++ columns ++ ")"

/-- `SqlGenerator.clear` (`sql-generator.ts:443-445`). -/
def clear (metadata : EntityMeta) : String :=
  "DELETE FROM " ++ metadata.tableName

/-- The aliased related-column projection appended to the SELECT clause for
one requested relation (`sql-generator.ts:46-70`). -/
def selectRelationColumns (storage : Storage) (metadata : EntityMeta)
    (relationName : String) : String :=
  match (storage.findRelations metadata.target).find? (·.propertyName = relationName) with
  | none => ""
  | some relation =>
    match (resolveTypeRef relation.type).bind (fun c => storage.findTable c) with
    | none => ""
    | some relatedTableMeta =>
        String.join ((storage.findColumns relatedTableMeta.target).map fun col =>
          let colName := colSqlName col
          ", " ++ relatedTableMeta.tableName ++ "." ++ colName ++ " as " ++
            relationName ++ "_" ++ colName)

/-- The `LEFT JOIN` fragment for one requested relation
(`sql-generator.ts:75-144`). -/
def selectJoinForRelation (storage : Storage) (metadata : EntityMeta)
    (relationName : String) (relation : RelationMeta) : String :=
  let relatedTableMeta := (resolveTypeRef relation.type).bind fun c => storage.findTable c
  let relatedTableName :=
    match relatedTableMeta with
    | some m => m.tableName
    | none => relationName ++ "Table"
  if relation.relationType = .manyToMany then
    let joinTableMeta := storage.joinTables.find? fun jt =>
      jt.target = metadata.target ∧ jt.propertyName = relationName
    let junctionTableName :=
      match joinTableMeta with
      | some jt => orName jt.name (metadata.tableName ++ "_" ++ relatedTableName)
      | none => metadata.tableName ++ "_" ++ relatedTableName
    " LEFT JOIN " ++ junctionTableName ++ " ON " ++ junctionTableName ++ "." ++
      metadata.tableName ++ "Id = " ++ metadata.tableName ++ ".id" ++
    " LEFT JOIN " ++ relatedTableName ++ " ON " ++ relatedTableName ++ ".id = " ++
      junctionTableName ++ "." ++ relatedTableName ++ "Id"
  else if relation.relationType = .manyToOne ∨
          (relation.relationType = .oneToOne ∧ relation.joinColumn) then
    let fkName := orName relation.joinColumnName (relationName ++ "Id")
    " LEFT JOIN " ++ relatedTableName ++ " ON " ++ relatedTableName ++ ".id = " ++
      metadata.tableName ++ "." ++ fkName
  else if relation.relationType = .oneToMany then
    let fkName :=
      match relatedTableMeta with
      | none => "foreignKey"
      | some rmeta =>
        match (storage.findRelations rmeta.target).find? (fun r =>
            resolveTypeRef r.type = some metadata.target ∧
            r.relationType = .manyToOne) with
        | some matchingRelation =>
            orName matchingRelation.joinColumnName (matchingRelation.propertyName ++ "Id")
        | none => "foreignKey"
    " LEFT JOIN " ++ relatedTableName ++ " ON " ++ relatedTableName ++ "." ++ fkName ++
      " = " ++ metadata.tableName ++ ".id"
  else if relation.relationType = .oneToOne ∧ !relation.joinColumn then
    let fkName :=
      match relatedTableMeta with
      | none => "foreignKey"
      | some rmeta =>
        match (storage.findRelations rmeta.target).find? (fun r =>
            resolveTypeRef r.type = some metadata.target ∧
            r.relationType = .oneToOne ∧ r.joinColumn) with
        | some matchingRelation =>
            orName matchingRelation.joinColumnName (matchingRelation.propertyName ++ "Id")
        | none => "foreignKey"
    " LEFT JOIN " ++ relatedTableName ++ " ON " ++ relatedTableName ++ "." ++ fkName ++
      " = " ++ metadata.tableName ++ ".id"
  else
    -- unreachable: the four relation kinds are exhausted above; kept to
    -- mirror the source's trailing `else`
    " LEFT JOIN " ++ relatedTableName ++ " ON " ++ relatedTableName ++ ".foreignKey = " ++
      metadata.tableName ++ ".id"

/-- The implicit soft-delete filter (`sql-generator.ts:149-156`): unless
`withDeleted` is set, `<table>.<deleteDateColumn> IS NULL` when such a column
exists. -/
def selectSoftDeleteClauses (storage : Storage) (metadata : EntityMeta)
    (withDeleted : Bool) : List String :=
  if !withDeleted then
    match (storage.findColumns metadata.target).find? (·.mode = some "deleteDate") with
    | some deleteDateCol =>
        [metadata.tableName ++ "." ++ colSqlName deleteDateCol ++ " IS NULL"]
    | none => []
  else []

/-- Assembly of the WHERE clause list of `select`
(`sql-generator.ts:146-164`): the soft-delete filter, then the caller's
conditions when the `where` object is present, non-empty and yields a
non-empty clause. -/
def selectWhere (storage : Storage) (metadata : EntityMeta)
    (whereObj : Option (List (String × JSVal))) (withDeleted : Bool) :
    Except String (List String × List JSVal) := do
  let softClauses := selectSoftDeleteClauses storage metadata withDeleted
  match whereObj with
  | some w =>
      if w.length > 0 then do
        let (clause, values) ← buildConditions w
        if clause ≠ "" then
          return (softClauses ++ [clause], values)
        else
          return (softClauses, [])
      else
        return (softClauses, [])
  | none => return (softClauses, [])

/-- The `SELECT ... FROM ... JOIN ...` prefix of `select`
(`sql-generator.ts:38-144`). -/
def selectPrefix (storage : Storage) (metadata : EntityMeta) (relations : List String)
    (selectCols : Option (List String)) : String :=
  let selectClause :=
    match selectCols with
    | some cols =>
        if cols.length > 0 then
          String.intercalate ", " (cols.map fun col => metadata.tableName ++ "." ++ col)
        else metadata.tableName ++ ".*"
    | none => metadata.tableName ++ ".*"
  "SELECT " ++ selectClause ++
    String.join (relations.map (selectRelationColumns storage metadata)) ++
    " FROM " ++ metadata.tableName ++
    String.join (relations.map fun relationName =>
      match (storage.findRelations metadata.target).find? (·.propertyName = relationName) with
      | some relation => selectJoinForRelation storage metadata relationName relation
      | none => "")

/-- `dir === 'DESC' || dir === 'desc' || dir === -1`. -/
def isDescDirection : JSVal → Bool
  | .str "DESC" => true
  | .str "desc" => true
  | .num n => n == -1
  | _ => false

/-- The `ORDER BY`/`LIMIT`/`OFFSET` suffix of `select`
(`sql-generator.ts:170-187`). -/
def selectSuffix (order : Option (List (String × JSVal))) (take skip : Option Int) : String :=
  (match order with
   | some o =>
      let orderClauses := o.map fun kv =>
        kv.1 ++ " " ++ (if isDescDirection kv.2 then "DESC" else "ASC")
      if orderClauses.length > 0 then " ORDER BY " ++ String.intercalate ", " orderClauses
      else ""
   | none => "") ++
  (match take with
   | some t => " LIMIT " ++ toString t
   | none => "") ++
  (match skip with
   | some s => " OFFSET " ++ toString s
   | none => "")

/-- `SqlGenerator.select` (`sql-generator.ts:35-190`). -/
def select (storage : Storage) (metadata : EntityMeta)
    (whereObj : Option (List (String × JSVal))) (relations : List String)
    (order : Option (List (String × JSVal))) (take skip : Option Int)
    (selectCols : Option (List String)) (withDeleted : Bool) :
    Except String (String × List JSVal) := do
  let (whereClauses, params) ← selectWhere storage metadata whereObj withDeleted
  let query := selectPrefix storage metadata relations selectCols ++
    (if whereClauses.length > 0 then " WHERE " ++ String.intercalate " AND " whereClauses
     else "") ++
    selectSuffix order take skip
  return (query, params)

/-- `SqlGenerator.updateCounter` (`sql-generator.ts:450-462`). -/
def updateCounter (metadata : EntityMeta) (whereObj : Option (List (String × JSVal)))
    (propertyPath : String) (value : Int) (increment : Bool) :
    Except String (String × List JSVal) :=
  let symbol := if increment then "+" else "-"
  let base := "UPDATE " ++ metadata.tableName ++ " SET " ++ propertyPath ++ " = " ++
    propertyPath ++ " " ++ symbol ++ " ?"
  match whereObj with
  | some w => do
      let (clause, values) ← buildConditions w
      return (base ++ " WHERE " ++ clause, .num value :: values)
  | none => .ok (base, [.num value])

/-- `SqlGenerator.softRemove` (`sql-generator.ts:467-490`). -/
def softRemove (storage : Storage) (metadata : EntityMeta)
    (whereObj : Option (List (String × JSVal))) : Except String (String × List JSVal) :=
  match (storage.findColumns metadata.target).find? (·.mode = some "deleteDate") with
  | none => .error ("Entity " ++ metadata.tableName ++
      " does not have a @DeleteDateColumn. Cannot soft remove.")
  | some deleteDateCol =>
    match whereObj with
    | some w => do
        let (clause, values) ← buildConditions w
        return ("UPDATE " ++ metadata.tableName ++ " SET " ++ colSqlName deleteDateCol ++
          " = ? WHERE " ++ clause, values)
    | none => .error "softRemove requires a WHERE clause"

/-- `SqlGenerator.recover` (`sql-generator.ts:495-517`). -/
def recover (storage : Storage) (metadata : EntityMeta)
    (whereObj : Option (List (String × JSVal))) : Except String (String × List JSVal) :=
  match (storage.findColumns metadata.target).find? (·.mode = some "deleteDate") with
  | none => .error ("Entity " ++ metadata.tableName ++
      " does not have a @DeleteDateColumn. Cannot recover.")
  | some deleteDateCol =>
    match whereObj with
    | some w => do
        let (clause, values) ← buildConditions w
        return ("UPDATE " ++ metadata.tableName ++ " SET " ++ colSqlName deleteDateCol ++
          " = NULL WHERE " ++ clause, values)
    | none => .error "recover requires a WHERE clause"

end SqlGenerator

/-! ## Persistence orchestrator and result materializer (`src/data-source.ts`)

Statements sent through the execution transport are `(sqlText, params)`
pairs; an operation's observable behaviour is the list of statements it
issues plus its result.  Entity instances are `JSVal.obj` values; listener
methods cannot be modelled as object fields, so listener activity is
reported as an invocation log. -/

namespace DataSource

/-- The transaction wrapper (`data-source.ts:155-188`): the callback is
modelled by the statements it issues through the shared connection together
with its outcome.  `startTransaction`/`commitTransaction`/
`rollbackTransaction` issue the literal statements of
`data-source.ts:155-171`. -/
def transactionRun {ε α : Type} (callback : List String × Except ε α) :
    List String × Except ε α :=
  let issued := "BEGIN TRANSACTION" :: callback.1
  match callback.2 with
  | .ok result => (issued ++ ["COMMIT"], .ok result)
  | .error e => (issued ++ ["ROLLBACK"], .error e)

/-- The special-column stamping of one column on one save
(`data-source.ts:244-256`): each loop iteration reads and mutates the
current entity state. -/
def stampColumn (col : ColumnMeta) (isUpdate : Bool) (now : Int) (entity : JSVal) : JSVal :=
  let entity :=
    if col.mode = some "createDate" ∧ ¬isUpdate ∧ ¬truthy (getProp entity col.propertyName)
    then setProp entity col.propertyName (.date now)
    else entity
  let entity :=
    if col.mode = some "updateDate" then setProp entity col.propertyName (.date now)
    else entity
  if col.mode = some "version" ∧ ¬isUpdate then
    setProp entity col.propertyName (.num 1)
  else if col.mode = some "version" ∧ isUpdate then
    -- `((entity[prop] || 0) + 1)`; non-numeric truthy values would undergo
    -- JavaScript coercion outside the modelled value fragment
    setProp entity col.propertyName
      (match (if truthy (getProp entity col.propertyName)
              then getProp entity col.propertyName else .num 0) with
       | .num n => .num (n + 1)
       | _ => .null)
  else entity

/-- The special-column stamping loop of `save` (`data-source.ts:243-256`). -/
def stampColumns (columns : List ColumnMeta) (isUpdate : Bool) (now : Int)
    (entity : JSVal) : JSVal :=
  columns.foldl (fun e col => stampColumn col isUpdate now e) entity

/-- The built-in write-direction serialization applied to a column value
before the transformer check (`data-source.ts:263-269`). -/
def builtinSerialize (col : ColumnMeta) (val : JSVal) : JSVal :=
  if col.options.type = some .simpleArray ∧ isArray val then
    .str (jsArrayJoin "," val)
  else if col.options.type = some .simpleJson ∧ ¬isUndef val then
    .str (jsonStringify val)
  else if col.options.type = some .date ∧ isDate val then
    match val with
    | .date t => .str (dateToISOString t)
    | _ => val
  else val

/-- The value `entityToPersist[col.propertyName]` receives for one column on
`save` (`data-source.ts:260-278`), or `none` when the property is left
unset. -/
def serializeColumnForSave (col : ColumnMeta) (entity : JSVal) : Option JSVal :=
  let val := builtinSerialize col (getProp entity col.propertyName)
  match col.options.transformer with
  | some transformer => if ¬isUndef val then some (transformer.to_ val) else none
  | none => if ¬isUndef val then some val else none

/-- The `entityToPersist` record built by `save` (`data-source.ts:258-278`). -/
def buildEntityToPersist (columns : List ColumnMeta) (entity : JSVal) :
    List (String × JSVal) :=
  columns.foldl
    (fun acc col =>
      match serializeColumnForSave col entity with
      | some v => setField acc col.propertyName v
      | none => acc)
    []

/-- The FK-value injection of `save` (`data-source.ts:280-289`): for each
owning to-one relation with a truthy related entity, the related entity's
literal `id` property is written under the FK column name. -/
def injectFks (storage : Storage) (target : Nat) (entity : JSVal)
    (entityToPersist : List (String × JSVal)) : List (String × JSVal) :=
  (storage.findRelations target).foldl
    (fun acc relation =>
      if relation.relationType = .manyToOne ∨
         (relation.relationType = .oneToOne ∧ relation.joinColumn) then
        let relatedEntity := getProp entity relation.propertyName
        if truthy relatedEntity then
          let fkName := orName relation.joinColumnName (relation.propertyName ++ "Id")
          setField acc fkName (getProp relatedEntity "id")
        else acc
      else acc)
    entityToPersist

/-- The pseudo-columns appended to the insert column list for FK values
(`data-source.ts:299-314`). -/
def fkExtraColumns (storage : Storage) (target : Nat)
    (entityToPersist : List (String × JSVal)) : List ColumnMeta :=
  (storage.findRelations target).flatMap fun relation =>
    if relation.relationType = .manyToOne ∨
       (relation.relationType = .oneToOne ∧ relation.joinColumn) then
      let fkName := orName relation.joinColumnName (relation.propertyName ++ "Id")
      if ¬isUndef (lookupField entityToPersist fkName) then
        [{ target := target, propertyName := fkName, options := { name := some fkName } }]
      else []
    else []

/-- The junction-row statements of `save` for many-to-many relations
(`data-source.ts:391-432`, without the optional cascade saves of the related
items): one junction INSERT per related item whose `id` and owner key are
truthy. -/
def junctionStatements (storage : Storage) (table : EntityMeta) (target : Nat)
    (entity : JSVal) (pkName : Option String) : List (String × List JSVal) :=
  (storage.findRelations target).flatMap fun relation =>
    if relation.relationType = .manyToMany then
      match getProp entity relation.propertyName with
      | .arr relatedItems =>
        if relatedItems.length > 0 then
          match (resolveTypeRef relation.type).bind (fun c => storage.findTable c) with
          | some relatedTable =>
            let junctionTableName :=
              orName relation.joinTableName (table.tableName ++ "_" ++ relatedTable.tableName)
            relatedItems.flatMap fun item =>
              let relatedId := getProp item "id"
              let ownerId := getProp entity (orName pkName "id")
              if truthy relatedId ∧ truthy ownerId then
                [SqlGenerator.insertJunction junctionTableName ownerId relatedId]
              else []
          | none => []
        else []
      | _ => []
    else []

/-- The transport's reply to a non-SELECT statement. -/
structure DriverResult where
  insertId : JSVal := .undef
  rowsAffected : Int := 0

/-- The statement-emitting core of `save` (`data-source.ts:205-322`) for an
entity type without relations (`findRelations target = []`); relation
cascades recursively re-enter `save` and mutate children into cyclic object
graphs, which tree-shaped values cannot represent, so they are out of the
modelled scope and the function returns `none` when relations exist.  The
result is the issued statement together with the entity as mutated by
stamping and the insert-id write-back. -/
def saveCore (storage : Storage) (target : Nat) (entity : JSVal) (now : Int)
    (driverResult : DriverResult) : Option ((String × List JSVal) × JSVal) :=
  match storage.findTable target with
  | none => none
  | some table =>
    if (storage.findRelations target).isEmpty then
      let pkColumn := (storage.findColumns target).find? (·.options.primary)
      let isUpdate :=
        match pkColumn with
        | some c => truthy (getProp entity c.propertyName)
        | none => false
      let entity := stampColumns (storage.findColumns target) isUpdate now entity
      let entityToPersist :=
        injectFks storage target entity
          (buildEntityToPersist (storage.findColumns target) entity)
      if isUpdate then
        let criteria :=
          match pkColumn with
          | some c => [(c.propertyName, getProp entity c.propertyName)]
          | none => []
        match SqlGenerator.update table entityToPersist (some criteria) with
        | .ok qp => some (qp, entity)
        | .error _ => none
      else
        let allColumns :=
          storage.findColumns target ++ fkExtraColumns storage target entityToPersist
        let qp := SqlGenerator.insert table allColumns (.obj entityToPersist)
        let entity :=
          if truthy driverResult.insertId then
            match pkColumn with
            | some c => setProp entity c.propertyName driverResult.insertId
            | none => entity
          else entity
        some (qp, entity)
    else none

/-- `DataSource.update` (`data-source.ts:449-470`): statements the call
executes, or the thrown error. -/
def updateOp (storage : Storage) (target : Nat)
    (criteria : Option (List (String × JSVal)))
    (partialEntity : List (String × JSVal)) (now : Int) :
    Except String (List (String × List JSVal)) :=
  match storage.findTable target with
  | none => .error "Entity not found in metadata"
  | some table =>
    let partialEntity :=
      (storage.findColumns target).foldl
        (fun acc col =>
          if col.mode = some "updateDate" then setField acc col.propertyName (.date now)
          else acc)
        partialEntity
    let entityToPersist :=
      (storage.findColumns target).foldl
        (fun acc col =>
          match col.options.transformer with
          | some transformer =>
              if ¬isUndef (lookupField partialEntity col.propertyName) then
                setField acc col.propertyName
                  (transformer.to_ (lookupField partialEntity col.propertyName))
              else acc
          | none => acc)
        partialEntity
    match SqlGenerator.update table entityToPersist criteria with
    | .ok qp => .ok [qp]
    | .error e => .error e

/-- `DataSource.delete` (`data-source.ts:484-505`): statements the call
executes, or the thrown error.  With a soft-delete column the call degrades
to an UPDATE stamping that column. -/
def deleteOp (storage : Storage) (target : Nat)
    (criteria : Option (List (String × JSVal))) (now : Int) :
    Except String (List (String × List JSVal)) :=
  match storage.findTable target with
  | none => .error "Entity not found in metadata"
  | some table =>
    match (storage.findColumns target).find? (·.mode = some "deleteDate") with
    | some deleteDateColumn =>
      let stamped : JSVal :=
        match deleteDateColumn.options.transformer with
        | some transformer => transformer.to_ (.date now)
        | none => .date now
      match SqlGenerator.update table [(deleteDateColumn.propertyName, stamped)] criteria with
      | .ok qp => .ok [qp]
      | .error e => .error e
    | none =>
      match SqlGenerator.delete table criteria with
      | .ok qp => .ok [qp]
      | .error e => .error e

/-- `transformValue` (`data-source.ts:845-858`): the read-direction value
transform; a registered transformer short-circuits every built-in rule. -/
def transformValue (col : ColumnMeta) (val : JSVal) : JSVal :=
  match col.options.transformer with
  | some transformer => transformer.from_ val
  | none =>
    if col.options.type = some .simpleArray ∧ isStringVal val then
      match val with
      | .str s => if s = "" then .arr [] else .arr ((s.splitOn ",").map .str)
      | _ => val
    else if col.options.type = some .simpleJson ∧ isStringVal val then
      match val with
      | .str s => (jsonParse s).getD val
      | _ => val
    else if col.options.type = some .date ∧ isStringVal val then
      match val with
      | .str s => .date (parseDateString s)
      | _ => val
    else val

/-! ### Result materializer (`DataSource.mapResults`, `data-source.ts:712-807`)

Rows are alias-to-value records.  The ordered `Map` keyed by primary-key
value is an insertion-ordered association list; JavaScript `Map` keys use
SameValueZero, which coincides with `strictEq` on the primitive keys rows
carry.  A JavaScript `TypeError` (reading metadata of an undefined
primary-key column) is modelled as `none`. -/

/-- `row[alias]`. -/
def rowGet (row : List (String × JSVal)) (k : String) : JSVal :=
  lookupField row k

/-- `entityMap.get(pkValue)`. -/
def mapGet (m : List (JSVal × JSVal)) (k : JSVal) : Option JSVal :=
  (m.find? fun kv => strictEq kv.1 k).map (·.2)

/-- Replace the entry for key `k` (the stored map object is mutated in
place, so its position is preserved). -/
def mapSet : List (JSVal × JSVal) → JSVal → JSVal → List (JSVal × JSVal)
  | [], k, v => [(k, v)]
  | kv :: rest, k, v =>
      if strictEq kv.1 k then (k, v) :: rest else kv :: mapSet rest k v

/-- One scalar-column assignment while building a root entity
(`data-source.ts:732-738`). -/
def buildScalarStep (row : List (String × JSVal)) (e : JSVal) (col : ColumnMeta) : JSVal :=
  let val := rowGet row (colSqlName col)
  if ¬isUndef val then setProp e col.propertyName (transformValue col val) else e

/-- One relation-property initialization while building a root entity
(`data-source.ts:741-750`). -/
def initRelationStep (storage : Storage) (target : Nat) (e : JSVal)
    (relationName : String) : JSVal :=
  match (storage.findRelations target).find? (·.propertyName = relationName) with
  | some relation =>
      if relation.relationType = .oneToMany ∨ relation.relationType = .manyToMany then
        setProp e relationName (.arr [])
      else setProp e relationName .null
  | none => e

/-- A fresh root entity for its first row (`data-source.ts:729-752`): scalar
columns through `transformValue`, then each requested relation property
initialized (`[]` for to-many kinds, `null` otherwise). -/
def buildRootEntity (storage : Storage) (target : Nat) (columns : List ColumnMeta)
    (relations : List String) (row : List (String × JSVal)) : JSVal :=
  relations.foldl (initRelationStep storage target)
    (columns.foldl (buildScalarStep row) (.obj []))

/-- One aliased-column assignment while decoding a related entity
(`data-source.ts:776-783`). -/
def buildRelatedStep (relationName : String) (row : List (String × JSVal))
    (re : JSVal) (col : ColumnMeta) : JSVal :=
  let val := rowGet row (relationName ++ "_" ++ colSqlName col)
  if ¬isUndef val then setProp re col.propertyName (transformValue col val) else re

/-- The related entity decoded from one row's aliased columns
(`data-source.ts:775-783`). -/
def buildRelatedEntity (relatedColumns : List ColumnMeta) (relationName : String)
    (row : List (String × JSVal)) : JSVal :=
  relatedColumns.foldl (buildRelatedStep relationName row) (.obj [])

/-- The related type's columns as the materializer computes them: the columns
of the lazily-resolved class, or none when resolution fails (`findColumns` of
an unresolved thunk matches nothing). -/
def relatedColumnsOf (storage : Storage) (relation : RelationMeta) : List ColumnMeta :=
  match resolveTypeRef relation.type with
  | some relatedClass => storage.findColumns relatedClass
  | none => []

/-- Processing of one requested relation for one row against the row's root
entity (`data-source.ts:755-796`). -/
def processRelationForRow (storage : Storage) (target : Nat)
    (row : List (String × JSVal)) (entity : JSVal) (relationName : String) :
    Option JSVal :=
  match (storage.findRelations target).find? (·.propertyName = relationName) with
  | none => some entity
  | some relation =>
    let relatedColumns := relatedColumnsOf storage relation
    match relatedColumns.find? (·.options.primary) <|> relatedColumns.head? with
    | none => none
    | some relatedPkCol =>
      let relatedPkValue := rowGet row (relationName ++ "_" ++ colSqlName relatedPkCol)
      if ¬isUndef relatedPkValue ∧ ¬isNull relatedPkValue then
        let relatedEntity := buildRelatedEntity relatedColumns relationName row
        if relation.relationType = .oneToMany ∨ relation.relationType = .manyToMany then
          match getProp entity relationName with
          | .arr elems =>
              if (elems.find? fun e =>
                    strictEq (getProp e relatedPkCol.propertyName) relatedPkValue).isSome
              then some entity
              else some (setProp entity relationName (.arr (elems ++ [relatedEntity])))
          | _ => none
        else some (setProp entity relationName relatedEntity)
      else some entity

/-- One row of the materialization loop (`data-source.ts:722-797`). -/
def mapResultsRow (storage : Storage) (target : Nat) (columns : List ColumnMeta)
    (relations : List String) (pkName : String) (m : List (JSVal × JSVal))
    (row : List (String × JSVal)) : Option (List (JSVal × JSVal)) :=
  let pkValue := rowGet row pkName
  if isUndef pkValue ∨ isNull pkValue then some m
  else
    match mapGet m pkValue with
    | some entity => do
        let entity ← relations.foldlM (processRelationForRow storage target row) entity
        some (mapSet m pkValue entity)
    | none => do
        let entity := buildRootEntity storage target columns relations row
        let entity ← relations.foldlM (processRelationForRow storage target row) entity
        some (m ++ [(pkValue, entity)])

/-- The full row loop of `mapResults`. -/
def mapResultsFold (storage : Storage) (target : Nat) (columns : List ColumnMeta)
    (relations : List String) (pkName : String)
    (results : List (List (String × JSVal))) : Option (List (JSVal × JSVal)) :=
  results.foldlM (mapResultsRow storage target columns relations pkName) []

/-- `DataSource.mapResults` (`data-source.ts:712-807`): the returned entity
list in first-seen order, together with the AfterLoad invocation log — one
entry per map entry per AfterLoad listener, keyed by the entry's primary-key
value (listener methods run once per unique root object,
`data-source.ts:799-806`). -/
def mapResults (storage : Storage) (target : Nat)
    (results : List (List (String × JSVal))) (relations : List String) :
    Option (List JSVal × List (JSVal × String)) :=
  if results.isEmpty then some ([], [])
  else
    let columns := storage.findColumns target
    let listeners := storage.findListeners target .afterLoad
    match columns.find? (·.options.primary) <|> columns.head? with
    | none => none
    | some pkColumn =>
      let pkName := colSqlName pkColumn
      match mapResultsFold storage target columns relations pkName results with
      | none => none
      | some m =>
          some (m.map (·.2),
                m.flatMap fun kv => listeners.map fun l => (kv.1, l.propertyName))

/-- Whether key `k` already occurs among `seen` under the map's
SameValueZero/`===` key test. -/
def keyInSeen (seen : List JSVal) (k : JSVal) : Bool :=
  seen.any fun s => strictEq s k

/-- The distinct non-null primary-key values of a row list in first-seen
order — the specification of the materializer's grouping. -/
def firstSeenKeys (pkName : String) (seen : List JSVal) :
    List (List (String × JSVal)) → List JSVal
  | [] => []
  | row :: rest =>
    let pk := rowGet row pkName
    if isUndef pk ∨ isNull pk then firstSeenKeys pkName seen rest
    else if keyInSeen seen pk then firstSeenKeys pkName seen rest
    else pk :: firstSeenKeys pkName (seen ++ [pk]) rest

/-- The first row whose primary-key alias carries (`===`) the value `k`. -/
def firstRowWith (pkName : String) (k : JSVal)
    (rows : List (List (String × JSVal))) : Option (List (String × JSVal)) :=
  rows.find? fun row => strictEq (rowGet row pkName) k

/-- The to-many array invariant for one root entity: the relation property
holds an array whose elements carry primitive, pairwise-distinct related
primary-key property values. -/
def arrFact (rn rpcName : String) (e : JSVal) : Prop :=
  ∃ elems, getProp e rn = .arr elems ∧
    (∀ x ∈ elems, isPrimitive (getProp x rpcName) = true) ∧
    (elems.map fun x => getProp x rpcName).Nodup

/-- Agreement of two entities on every registered scalar column property. -/
def scalarPropsEq (columns : List ColumnMeta) (a b : JSVal) : Prop :=
  ∀ c ∈ columns, getProp a c.propertyName = getProp b c.propertyName

/-- The materializer's output contract: the returned entities come from an
insertion-ordered map whose keys are the distinct non-null primary-key values
of the rows in first-seen order, each entity's registered scalar columns are
decoded from the first row carrying its key, the AfterLoad log holds one
entry per map entry per listener, and every requested to-many relation
property of every entity is an array de-duplicated by related primary-key
value. -/
def materializationOk (storage : Storage) (target : Nat) (relations : List String)
    (rows : List (List (String × JSVal))) (es : List JSVal)
    (log : List (JSVal × String)) (columns : List ColumnMeta)
    (pkColumn : ColumnMeta) : Prop :=
  ∃ m : List (JSVal × JSVal),
    es = m.map (·.2) ∧
    m.map (·.1) = firstSeenKeys (colSqlName pkColumn) [] rows ∧
    (m.map (·.1)).Nodup ∧
    log = m.flatMap (fun kv =>
      (storage.findListeners target .afterLoad).map fun l => (kv.1, l.propertyName)) ∧
    (∀ kv ∈ m, ∃ row,
      firstRowWith (colSqlName pkColumn) kv.1 rows = some row ∧
      scalarPropsEq columns kv.2 (buildRootEntity storage target columns relations row)) ∧
    (∀ rn ∈ relations, ∀ (rel : RelationMeta) (rpc : ColumnMeta),
      (storage.findRelations target).find? (·.propertyName = rn) = some rel →
      (rel.relationType = .oneToMany ∨ rel.relationType = .manyToMany) →
      ((relatedColumnsOf storage rel).find? (·.options.primary) <|>
        (relatedColumnsOf storage rel).head?) = some rpc →
      (∀ c ∈ relatedColumnsOf storage rel, c.propertyName = rpc.propertyName → c = rpc) →
      (∀ v, transformValue rpc v = v) →
      (∀ row ∈ rows, isPrimitive (rowGet row (rn ++ "_" ++ colSqlName rpc)) = true) →
      ∀ kv ∈ m, arrFact rn rpc.propertyName kv.2)

end DataSource

/-! ## Concrete fixtures

A small registered schema used to evaluate the theorems on concrete inputs:
`User` (target 1) with a one-to-many `posts` relation, `Post` (target 2)
owning the inverse many-to-one `user` relation, and a `Tag` type (target 3)
whose declared primary column is named `uuid` rather than `id`. -/

def userMeta : EntityMeta := { target := 1, name := "User", tableName := "user" }

def postMeta : EntityMeta := { target := 2, name := "Post", tableName := "post" }

def tagMeta : EntityMeta := { target := 3, name := "Tag", tableName := "tag" }

def colUserId : ColumnMeta :=
  { target := 1, propertyName := "id",
    options := { primary := true, generated := true, type := some .integer } }

def colUserName : ColumnMeta :=
  { target := 1, propertyName := "name", options := { type := some .string } }

def colUserVersion : ColumnMeta :=
  { target := 1, propertyName := "rev", options := {}, mode := some "version" }

def colPostId : ColumnMeta :=
  { target := 2, propertyName := "id",
    options := { primary := true, generated := true, type := some .integer } }

def colPostTitle : ColumnMeta :=
  { target := 2, propertyName := "title", options := { type := some .string } }

def colTagUuid : ColumnMeta :=
  { target := 3, propertyName := "uuid",
    options := { primary := true, type := some .string } }

def relUserPosts : RelationMeta :=
  { target := 1, propertyName := "posts", relationType := .oneToMany,
    type := .thunk (some 2), inverseSide := some "user" }

def relPostUser : RelationMeta :=
  { target := 2, propertyName := "user", relationType := .manyToOne,
    type := .thunk (some 1) }

def relUserTags : RelationMeta :=
  { target := 1, propertyName := "tags", relationType := .manyToMany,
    type := .thunk (some 3) }

def relPostTag : RelationMeta :=
  { target := 2, propertyName := "tag", relationType := .manyToOne,
    type := .thunk (some 3) }

/-- The joined schema: both entity types and the inverse relation pair. -/
def demoStorage : Storage :=
  { columns := [colUserId, colUserName, colPostId, colPostTitle, colTagUuid],
    tables := [userMeta, postMeta, tagMeta],
    relations := [relUserPosts, relPostUser, relPostTag],
    entityListeners := [{ target := 1, propertyName := "afterLoadHook", type := .afterLoad }] }

/-- A storage where `User` has no relations and a version column, used for the
save-path theorems. -/
def flatStorage : Storage :=
  { columns := [colUserId, colUserName],
    tables := [userMeta] }

/-- An identity transformer (`to`/`from` both return their argument). -/
def idTransformer : Transformer := { to_ := fun v => v, from_ := fun v => v }

/-- A `simple-array` column with a registered transformer. -/
def colTags : ColumnMeta :=
  { target := 1, propertyName := "tags",
    options := { type := some .simpleArray, transformer := some idTransformer } }

/-- A soft-delete column on `User`. -/
def colUserDeletedAt : ColumnMeta :=
  { target := 1, propertyName := "deletedAt",
    options := { type := some .dateTime }, mode := some "deleteDate" }

/-- `User` with a soft-delete column and no relations. -/
def softStorage : Storage :=
  { columns := [colUserId, colUserName, colUserDeletedAt],
    tables := [userMeta] }

/-- A storage where `Post` declares no inverse many-to-one back at `User`,
so the one-to-many FK lookup finds nothing. -/
def brokenStorage : Storage :=
  { columns := [colUserId, colUserName, colPostId, colPostTitle],
    tables := [userMeta, postMeta],
    relations := [relUserPosts] }

/-- `Post` owning a many-to-one relation to `Tag`, whose declared primary
column is named `uuid`, not `id`. -/
def tagOwnerStorage : Storage :=
  { columns := [colPostId, colPostTitle, colTagUuid],
    tables := [postMeta, tagMeta],
    relations := [relPostTag] }

/-- `User` with a many-to-many relation to `Tag` (primary column `uuid`). -/
def m2mStorage : Storage :=
  { columns := [colUserId, colUserName, colTagUuid],
    tables := [userMeta, tagMeta],
    relations := [relUserTags] }

/-- Two joined rows for one `User` root against two related `Post` rows —
the Cartesian expansion of a one-to-many eager join. -/
def claim4Rows : List (List (String × JSVal)) :=
  [[("id", .num 1), ("name", .str "A"), ("posts_id", .num 10), ("posts_title", .str "X")],
   [("id", .num 1), ("name", .str "A"), ("posts_id", .num 11), ("posts_title", .str "Y")]]

/-- The single materialized root the two joined rows collapse to. -/
def claim4Root : JSVal :=
  .obj [("id", .num 1), ("name", .str "A"),
        ("posts", .arr [.obj [("id", .num 10), ("title", .str "X")],
                        .obj [("id", .num 11), ("title", .str "Y")]])]

/-! ## Basic lemmas on the object model -/

theorem lookupField_setField_self (fs : List (String × JSVal)) (k : String) (v : JSVal) :
    lookupField (setField fs k v) k = v := by
  induction fs with
  | nil => simp [setField, lookupField]
  | cons kv rest ih =>
      obtain ⟨k', v'⟩ := kv
      by_cases h : k' = k
      · simp [setField, h, lookupField]
      · simp [setField, h, lookupField, ih]

theorem lookupField_setField_ne (fs : List (String × JSVal)) (k p : String) (v : JSVal)
    (h : k ≠ p) : lookupField (setField fs k v) p = lookupField fs p := by
  induction fs with
  | nil => simp [setField, lookupField, h]
  | cons kv rest ih =>
      obtain ⟨k', v'⟩ := kv
      by_cases h' : k' = k
      · subst h'
        simp [setField, lookupField, h]
      · simp [setField, h', lookupField, ih]

/-- Whether a value is a plain object. -/
def isObjVal : JSVal → Bool
  | .obj _ => true
  | _ => false

theorem isObjVal_setProp (e : JSVal) (k : String) (v : JSVal) :
    isObjVal (setProp e k v) = isObjVal e := by
  cases e <;> simp [setProp, isObjVal]

theorem getProp_setProp_self (e : JSVal) (k : String) (v : JSVal)
    (h : isObjVal e = true) : getProp (setProp e k v) k = v := by
  cases e <;> simp [isObjVal] at h ⊢
  simp [setProp, getProp, lookupField_setField_self]

theorem getProp_setProp_ne (e : JSVal) (k p : String) (v : JSVal) (h : k ≠ p) :
    getProp (setProp e k v) p = getProp e p := by
  cases e <;> simp [setProp, getProp]
  exact lookupField_setField_ne _ _ _ _ h

theorem strictEq_eq_true_iff (a b : JSVal) :
    strictEq a b = true ↔ (isPrimitive a = true ∧ a = b) := by
  cases a <;> cases b <;> simp [strictEq, isPrimitive]

/-- On primitive values, `===` coincides with structural equality. -/
theorem strictEq_of_prim (a b : JSVal) (ha : isPrimitive a = true) :
    strictEq a b = true ↔ a = b := by
  rw [strictEq_eq_true_iff]
  exact ⟨fun h => h.2, fun h => ⟨ha, h⟩⟩

/-! ## Claim C1 -/

/-- C1: the claim states that a `Not` operator node wrapping `In`, `Like` or
`IsNull` emits `NOT IN (?, ...)`, `NOT LIKE ?` or `IS NOT NULL`.  In the code,
`OperatorType.NotEqual` and `OperatorType.Not` are both the string `'NOT'`,
so the `switch` in `buildConditions` always takes the `NotEqual` case for a
`Not` node: every `Not` wrapping — `In`, `Like`, `IsNull`, an unrecognized
operator, or a bare value — emits `!= ?`, binding the wrapped value (for
inner operator nodes, the whole node object) as the parameter.  This theorem
evaluates `buildConditions` at the claim's inputs, exhibiting the
divergence on the first three and agreement on the last two. -/
theorem claim1_not_operator_shadowed :
    buildConditions [("age", .opNode "NOT" (.opNode "IN" (.arr [.num 1, .num 2])))] =
      .ok ("age != ?", [.opNode "IN" (.arr [.num 1, .num 2])]) ∧
    buildConditions [("name", .opNode "NOT" (.opNode "LIKE" (.str "a%")))] =
      .ok ("name != ?", [.opNode "LIKE" (.str "a%")]) ∧
    buildConditions [("deletedAt", .opNode "NOT" (.opNode "IS_NULL" .undef))] =
      .ok ("deletedAt != ?", [.opNode "IS_NULL" .undef]) ∧
    buildConditions [("age", .opNode "NOT" (.num 5))] =
      .ok ("age != ?", [.num 5]) ∧
    buildConditions [("age", .opNode "NOT" (.opNode "SOUNDS_LIKE" (.str "x")))] =
      .ok ("age != ?", [.opNode "SOUNDS_LIKE" (.str "x")]) := by
  exact ⟨rfl, rfl, rfl, rfl, rfl⟩

/-! ## Claim C2 -/

/-- C2 counterexample: the claim states that a delete with an *empty* filter
mapping fails with a missing-where-clause error and executes no SQL.  In the
code `if (where)` is a truthiness test and an empty object is truthy, so an
empty mapping is accepted: `SqlGenerator.delete` returns a statement with an
empty condition, and `DataSource.delete` executes it. -/
theorem claim2_counterexample :
    SqlGenerator.delete userMeta (some []) = .ok ("DELETE FROM user WHERE ", []) ∧
    DataSource.deleteOp flatStorage 1 (some []) 0 =
      .ok [("DELETE FROM user WHERE ", [])] ∧
    DataSource.updateOp flatStorage 1 (some []) [("name", .str "B")] 0 =
      .ok [("UPDATE user SET name = ? WHERE ", [.str "B"])] := by
  exact ⟨rfl, rfl, rfl⟩

/-- C2 (amended): delete and update reject with the missing-WHERE-clause
error — and hence execute no SQL — exactly when the filter is *absent*
(falsy); a present-but-empty filter mapping is accepted and yields a
statement whose WHERE clause has an empty condition, so no unconditioned
full-table `DELETE`/`UPDATE` text is emitted on either path. -/
theorem claim2_amended_safety (storage : Storage) (target : Nat) (table : EntityMeta)
    (values : List (String × JSVal)) (partial_ : List (String × JSVal)) (now : Int)
    (htab : storage.findTable target = some table) :
    SqlGenerator.delete table none =
      .error "DELETE requires a WHERE clause (for safety in this simple ORM)" ∧
    SqlGenerator.update table values none = .error "UPDATE requires a WHERE clause" ∧
    (∃ e, DataSource.deleteOp storage target none now = .error e) ∧
    (∃ e, DataSource.updateOp storage target none partial_ now = .error e) ∧
    SqlGenerator.delete table (some []) =
      .ok ("DELETE FROM " ++ table.tableName ++ " WHERE ", []) ∧
    SqlGenerator.update table values (some []) =
      .ok ("UPDATE " ++ table.tableName ++ " SET " ++
             String.intercalate ", " (values.map fun kv => kv.1 ++ " = ?") ++ " WHERE ",
           values.map (·.2)) := by
  refine ⟨rfl, rfl, ?_, ?_, ?_, ?_⟩
  · unfold DataSource.deleteOp
    rw [htab]
    cases hdc : (storage.findColumns target).find? (·.mode = some "deleteDate") <;>
      simp [SqlGenerator.update, SqlGenerator.delete]
  · unfold DataSource.updateOp
    rw [htab]
    simp [SqlGenerator.update]
  · unfold SqlGenerator.delete
    simp only [show buildConditions [] = .ok ("", []) from rfl]
    simp [String.append_empty]
  · unfold SqlGenerator.update
    simp only [show buildConditions [] = .ok ("", []) from rfl]
    simp [String.append_empty]

/-- C2 witness: the amended statement evaluated on the concrete `User`
schema. -/
theorem claim2_amended_safety_witness :
    SqlGenerator.delete userMeta none =
      .error "DELETE requires a WHERE clause (for safety in this simple ORM)" ∧
    (∃ e, DataSource.deleteOp flatStorage 1 none 0 = .error e) ∧
    SqlGenerator.delete userMeta (some []) =
      .ok ("DELETE FROM " ++ userMeta.tableName ++ " WHERE ", []) := by
  have h := claim2_amended_safety flatStorage 1 userMeta [("name", .str "B")] [] 0 rfl
  exact ⟨h.1, h.2.2.1, h.2.2.2.2.1⟩

/-! ## Claim C3 -/

/-- C3 counterexample: the claim states that for a column with a registered
transformer, on write *exactly* `to()` is applied to the entity's property
value and the built-in array-join rule is not applied.  For a `simple-array`
column holding `["a","b"]` with an identity transformer, the code first
joins the array to the string `"a,b"` and passes *that* to `to()`: the
persisted value is `"a,b"`, not `to(["a","b"]) = ["a","b"]`. -/
theorem claim3_counterexample :
    DataSource.serializeColumnForSave colTags
        (.obj [("tags", .arr [.str "a", .str "b"])]) = some (.str "a,b") ∧
    idTransformer.to_ (.arr [.str "a", .str "b"]) = .arr [.str "a", .str "b"] ∧
    (JSVal.str "a,b") ≠ (.arr [.str "a", .str "b"]) := by
  refine ⟨rfl, rfl, fun h => ?_⟩
  cases h

/-- C3 (amended): for a column with a registered transformer, on *read*
exactly `from()` is applied to the raw value (no built-in split/parse/Date
rule runs), while on *write* `to()` is applied last but to the value already
serialized by the built-in array-join/JSON-stringify/ISO-date rules, not to
the raw property value; the property is left unset when that serialized
value is `undefined`. -/
theorem claim3_amended_transformer (col : ColumnMeta) (transformer : Transformer)
    (htr : col.options.transformer = some transformer) :
    (∀ rawVal, DataSource.transformValue col rawVal = transformer.from_ rawVal) ∧
    (∀ entity,
      DataSource.serializeColumnForSave col entity =
        (if isUndef (DataSource.builtinSerialize col (getProp entity col.propertyName))
         then none
         else some (transformer.to_
           (DataSource.builtinSerialize col (getProp entity col.propertyName))))) := by
  constructor
  · intro rawVal
    unfold DataSource.transformValue
    rw [htr]
  · intro entity
    unfold DataSource.serializeColumnForSave
    rw [htr]
    by_cases h : isUndef (DataSource.builtinSerialize col (getProp entity col.propertyName)) <;>
      simp [h]

/-- C3 witness: the amended statement evaluated on the concrete transformer
column. -/
theorem claim3_amended_transformer_witness :
    DataSource.transformValue colTags (.str "x,y") = .str "x,y" ∧
    DataSource.serializeColumnForSave colTags
        (.obj [("tags", .arr [.str "a", .str "b"])]) =
      some (idTransformer.to_ (.str "a,b")) := by
  have h := claim3_amended_transformer colTags idTransformer rfl
  refine ⟨h.1 (.str "x,y"), ?_⟩
  rw [h.2 (.obj [("tags", .arr [.str "a", .str "b"])])]
  rfl

/-! ## Claim C5 -/

theorem stampColumn_mode_none (col : ColumnMeta) (u : Bool) (now : Int) (e : JSVal)
    (hmode : col.mode = none) : DataSource.stampColumn col u now e = e := by
  unfold DataSource.stampColumn
  split_ifs <;> simp_all

theorem stampColumn_getProp_ne (col : ColumnMeta) (u : Bool) (now : Int) (e : JSVal)
    (p : String) (h : col.propertyName ≠ p) :
    getProp (DataSource.stampColumn col u now e) p = getProp e p := by
  unfold DataSource.stampColumn
  split_ifs <;> simp [getProp_setProp_ne _ _ _ _ h]

theorem isObjVal_stampColumn (col : ColumnMeta) (u : Bool) (now : Int) (e : JSVal) :
    isObjVal (DataSource.stampColumn col u now e) = isObjVal e := by
  unfold DataSource.stampColumn
  split_ifs <;> simp [isObjVal_setProp]

theorem isObjVal_stampColumns (cols : List ColumnMeta) (u : Bool) (now : Int) (e : JSVal) :
    isObjVal (DataSource.stampColumns cols u now e) = isObjVal e := by
  induction cols generalizing e with
  | nil => rfl
  | cons c rest ih =>
      show isObjVal (DataSource.stampColumns rest u now (DataSource.stampColumn c u now e)) = _
      rw [ih, isObjVal_stampColumn]

/-- Columns that never touch property `p` (different name, or no special
mode) leave `p` unchanged through the stamping loop. -/
theorem stampColumns_getProp_frame (cols : List ColumnMeta) (u : Bool) (now : Int)
    (e : JSVal) (p : String)
    (h : ∀ c ∈ cols, c.propertyName = p → c.mode = none) :
    getProp (DataSource.stampColumns cols u now e) p = getProp e p := by
  induction cols generalizing e with
  | nil => rfl
  | cons c rest ih =>
      show getProp (DataSource.stampColumns rest u now (DataSource.stampColumn c u now e)) p = _
      rw [ih _ fun c' hc' => h c' (List.mem_cons_of_mem _ hc')]
      by_cases hname : c.propertyName = p
      · rw [stampColumn_mode_none c u now e (h c (List.mem_cons_self _ _) hname)]
      · exact stampColumn_getProp_ne c u now e p hname

theorem stampColumn_createDate_insert (col : ColumnMeta) (now : Int) (e : JSVal)
    (hmode : col.mode = some "createDate")
    (hval : truthy (getProp e col.propertyName) = false) :
    DataSource.stampColumn col false now e = setProp e col.propertyName (.date now) := by
  unfold DataSource.stampColumn
  split_ifs with h1 h2 h3 h4 <;> simp_all

theorem stampColumn_createDate_skip (col : ColumnMeta) (u : Bool) (now : Int) (e : JSVal)
    (hmode : col.mode = some "createDate")
    (hskip : u = true ∨ truthy (getProp e col.propertyName) = true) :
    DataSource.stampColumn col u now e = e := by
  unfold DataSource.stampColumn
  rcases hskip with h | h <;> split_ifs <;> simp_all

theorem stampColumn_updateDate (col : ColumnMeta) (u : Bool) (now : Int) (e : JSVal)
    (hmode : col.mode = some "updateDate") :
    DataSource.stampColumn col u now e = setProp e col.propertyName (.date now) := by
  unfold DataSource.stampColumn
  split_ifs <;> simp_all

theorem stampColumn_version_insert (col : ColumnMeta) (now : Int) (e : JSVal)
    (hmode : col.mode = some "version") :
    DataSource.stampColumn col false now e = setProp e col.propertyName (.num 1) := by
  unfold DataSource.stampColumn
  split_ifs <;> simp_all

theorem stampColumn_version_update (col : ColumnMeta) (now : Int) (e : JSVal) (n : Int)
    (hmode : col.mode = some "version") (hval : getProp e col.propertyName = .num n) :
    DataSource.stampColumn col true now e = setProp e col.propertyName (.num (n + 1)) := by
  unfold DataSource.stampColumn
  by_cases hz : n = 0
  · subst hz
    split_ifs <;> simp_all [truthy]
  · have ht : truthy (getProp e col.propertyName) = true := by
      rw [hval]; simp [truthy, hz]
    split_ifs <;> simp_all [truthy]

/-- C5: on every save, with `cols = l1 ++ col :: l2` the registered column
list and no other column of the list sharing `col`'s property name: a
create-timestamp column is stamped with "now" only on the insert path and
only when its property is unset (falsy), and is left unchanged on the update
path or when already set; an update-timestamp column is stamped with "now" on
both paths; a version column becomes `1` on the insert path and its previous
numeric value plus one on the update path. -/
theorem claim5_special_column_stamping (l1 l2 : List ColumnMeta) (col : ColumnMeta)
    (u : Bool) (now : Int) (e : JSVal)
    (hobj : isObjVal e = true)
    (hl1 : ∀ c ∈ l1, c.propertyName ≠ col.propertyName)
    (hl2 : ∀ c ∈ l2, c.propertyName ≠ col.propertyName) :
    (col.mode = some "createDate" →
      (u = false → truthy (getProp e col.propertyName) = false →
        getProp (DataSource.stampColumns (l1 ++ col :: l2) u now e) col.propertyName =
          .date now) ∧
      (u = true ∨ truthy (getProp e col.propertyName) = true →
        getProp (DataSource.stampColumns (l1 ++ col :: l2) u now e) col.propertyName =
          getProp e col.propertyName)) ∧
    (col.mode = some "updateDate" →
      getProp (DataSource.stampColumns (l1 ++ col :: l2) u now e) col.propertyName =
        .date now) ∧
    (col.mode = some "version" →
      (u = false →
        getProp (DataSource.stampColumns (l1 ++ col :: l2) u now e) col.propertyName =
          .num 1) ∧
      (∀ n : Int, u = true → getProp e col.propertyName = .num n →
        getProp (DataSource.stampColumns (l1 ++ col :: l2) u now e) col.propertyName =
          .num (n + 1))) := by
  have hsplit : DataSource.stampColumns (l1 ++ col :: l2) u now e =
      DataSource.stampColumns l2 u now
        (DataSource.stampColumn col u now (DataSource.stampColumns l1 u now e)) := by
    unfold DataSource.stampColumns
    rw [List.foldl_append, List.foldl_cons]
  have hframe1 : ∀ p, p = col.propertyName →
      getProp (DataSource.stampColumns l1 u now e) p = getProp e p := by
    intro p hp
    apply stampColumns_getProp_frame
    intro c hc hc'
    exact absurd (hc'.trans hp) (hl1 c hc)
  have hobj1 : isObjVal (DataSource.stampColumns l1 u now e) = true := by
    rw [isObjVal_stampColumns]; exact hobj
  have hframe2 : ∀ x, getProp (DataSource.stampColumns l2 u now x) col.propertyName =
      getProp x col.propertyName := by
    intro x
    apply stampColumns_getProp_frame
    intro c hc hc'
    exact absurd hc' (hl2 c hc)
  refine ⟨fun hmode => ⟨fun hu hval => ?_, fun hskip => ?_⟩,
          fun hmode => ?_, fun hmode => ⟨fun hu => ?_, fun n hu hval => ?_⟩⟩
  · subst hu
    rw [hsplit, hframe2,
        stampColumn_createDate_insert col now _ hmode
          (by rw [hframe1 _ rfl]; exact hval),
        getProp_setProp_self _ _ _ hobj1]
  · rw [hsplit, hframe2,
        stampColumn_createDate_skip col u now _ hmode
          (by rcases hskip with h | h
              · exact Or.inl h
              · exact Or.inr (by rw [hframe1 _ rfl]; exact h)),
        hframe1 _ rfl]
  · rw [hsplit, hframe2, stampColumn_updateDate col u now _ hmode,
        getProp_setProp_self _ _ _ hobj1]
  · subst hu
    rw [hsplit, hframe2, stampColumn_version_insert col now _ hmode,
        getProp_setProp_self _ _ _ hobj1]
  · subst hu
    rw [hsplit, hframe2,
        stampColumn_version_update col now _ n hmode (by rw [hframe1 _ rfl]; exact hval),
        getProp_setProp_self _ _ _ hobj1]

/-- C5 witness: the stamping evaluated on concrete version, create-date and
update-date columns. -/
theorem claim5_special_column_stamping_witness :
    getProp (DataSource.stampColumns [colUserVersion] true 99
        (.obj [("rev", .num 3)])) "rev" = .num 4 ∧
    getProp (DataSource.stampColumns [colUserVersion] false 99 (.obj [])) "rev" = .num 1 ∧
    getProp (DataSource.stampColumns
        [{ target := 1, propertyName := "createdAt", options := {}, mode := some "createDate" }]
        false 99 (.obj [])) "createdAt" = .date 99 := by
  refine ⟨?_, ?_, ?_⟩
  · exact ((claim5_special_column_stamping [] [] colUserVersion true 99
      (.obj [("rev", .num 3)]) rfl (by simp) (by simp)).2.2 rfl).2 3 rfl rfl
  · exact ((claim5_special_column_stamping [] [] colUserVersion false 99
      (.obj []) rfl (by simp) (by simp)).2.2 rfl).1 rfl
  · exact ((claim5_special_column_stamping [] []
      { target := 1, propertyName := "createdAt", options := {}, mode := some "createDate" }
      false 99 (.obj []) rfl (by simp) (by simp)).1 rfl).1 rfl rfl

/-! ## Claim C7 -/

theorem injectFks_of_no_relations (storage : Storage) (target : Nat) (e : JSVal)
    (persist : List (String × JSVal)) (h : storage.findRelations target = []) :
    DataSource.injectFks storage target e persist = persist := by
  unfold DataSource.injectFks
  rw [h]
  rfl

theorem fkExtraColumns_of_no_relations (storage : Storage) (target : Nat)
    (persist : List (String × JSVal)) (h : storage.findRelations target = []) :
    DataSource.fkExtraColumns storage target persist = [] := by
  unfold DataSource.fkExtraColumns
  rw [h]
  rfl

theorem buildConditions_single (k : String) (v : JSVal) (h : isOperatorNode v = false) :
    buildConditions [(k, v)] = .ok (k ++ " = ?", [v]) := by
  have hc : condFor k v = .ok (k ++ " = ?", [v]) := by
    unfold condFor
    rw [h]
    rfl
  unfold buildConditions
  rw [show List.mapM (fun kv : String × JSVal => condFor kv.1 kv.2) [(k, v)] =
      do { let c ← condFor k v; pure [c] } from rfl, hc]
  rfl

/-- C7: a save classifies itself by the truthiness of the primary-key
property (for an entity type without relations, the modelled scope of
`saveCore`): when the property holds no value the insert path runs — the
single issued statement is an INSERT, never an UPDATE, and a truthy returned
insert identifier is assigned back onto the primary-key property (a falsy one
leaves it unchanged); when the property holds a (numeric, non-zero) value the
update path runs — the single issued statement is an UPDATE whose WHERE
clause filters on the primary-key property with the primary-key value as its
final parameter, and no INSERT is issued. -/
theorem claim7_save_path_classification
    (storage : Storage) (target : Nat) (table : EntityMeta) (pkCol : ColumnMeta)
    (e : JSVal) (now : Int) (dr : DataSource.DriverResult)
    (htab : storage.findTable target = some table)
    (hnorel : storage.findRelations target = [])
    (hpk : (storage.findColumns target).find? (·.options.primary) = some pkCol)
    (hobj : isObjVal e = true)
    (hstampfree : ∀ c ∈ storage.findColumns target,
      c.propertyName = pkCol.propertyName → c.mode = none) :
    (truthy (getProp e pkCol.propertyName) = false →
      ∃ names params entityAfter,
        DataSource.saveCore storage target e now dr =
          some (("INSERT INTO " ++ table.tableName ++ " (" ++ names ++ ") VALUES (" ++
                 String.intercalate ", "
                   (((storage.findColumns target).map colSqlName).map fun _ => "?") ++ ")",
                 params),
                entityAfter) ∧
        (truthy dr.insertId = true →
          getProp entityAfter pkCol.propertyName = dr.insertId) ∧
        (truthy dr.insertId = false →
          getProp entityAfter pkCol.propertyName = getProp e pkCol.propertyName)) ∧
    (∀ n : Int, getProp e pkCol.propertyName = .num n → n ≠ 0 →
      ∃ setPart setParams updatePrefix,
        DataSource.saveCore storage target e now dr =
          some ((updatePrefix ++ " WHERE " ++ (pkCol.propertyName ++ " = ?"),
                 setParams ++ [JSVal.num n]),
                DataSource.stampColumns (storage.findColumns target) true now e) ∧
        updatePrefix = "UPDATE " ++ table.tableName ++ " SET " ++ setPart) := by
  have hframe : ∀ u,
      getProp (DataSource.stampColumns (storage.findColumns target) u now e)
          pkCol.propertyName = getProp e pkCol.propertyName := by
    intro u
    exact stampColumns_getProp_frame _ _ _ _ _ hstampfree
  have hobjStamp : ∀ u,
      isObjVal (DataSource.stampColumns (storage.findColumns target) u now e) = true := by
    intro u
    rw [isObjVal_stampColumns]
    exact hobj
  constructor
  · intro hfalsy
    unfold DataSource.saveCore
    rw [htab, hnorel, hpk]
    dsimp only [List.isEmpty]
    rw [hfalsy]
    simp only [Bool.false_eq_true, if_false,
      fkExtraColumns_of_no_relations storage target _ hnorel, List.append_nil]
    unfold SqlGenerator.insert
    refine ⟨String.intercalate ", " ((storage.findColumns target).map colSqlName), _, _,
      rfl, ?_, ?_⟩
    · intro htruthy
      rw [htruthy]
      simp only [if_true]
      rw [getProp_setProp_self _ _ _ (hobjStamp false)]
    · intro hfalsyId
      rw [hfalsyId]
      simp only [Bool.false_eq_true, if_false]
      exact hframe false
  · intro n hval hnz
    have htruthy : truthy (getProp e pkCol.propertyName) = true := by
      rw [hval]
      simp [truthy, hnz]
    unfold DataSource.saveCore
    rw [htab, hnorel, hpk]
    dsimp only [List.isEmpty]
    rw [htruthy]
    simp only [if_true]
    rw [hframe true, hval]
    unfold SqlGenerator.update
    dsimp only
    rw [buildConditions_single pkCol.propertyName (.num n)
          (by simp [isOperatorNode, isObjectType])]
    dsimp only [bind, Except.bind, pure, Except.pure]
    exact ⟨_, _, _, rfl, rfl⟩

/-- C7 witness: the save paths evaluated on the concrete relation-free `User`
schema — an entity without an id takes the insert path and receives the
returned insert id; an entity with id 5 takes the update path filtered on
`id = 5`. -/
theorem claim7_save_path_classification_witness :
    (∃ names params entityAfter,
      DataSource.saveCore flatStorage 1 (.obj [("name", .str "A")]) 0
          { insertId := .num 9 } =
        some (("INSERT INTO " ++ "user" ++ " (" ++ names ++ ") VALUES (" ++
               String.intercalate ", "
                 (((flatStorage.findColumns 1).map colSqlName).map fun _ => "?") ++
               ")", params), entityAfter) ∧
      getProp entityAfter "id" = .num 9) ∧
    (∃ setPart setParams updatePrefix,
      DataSource.saveCore flatStorage 1 (.obj [("id", .num 5), ("name", .str "A")]) 0
          { insertId := .undef } =
        some ((updatePrefix ++ " WHERE " ++ ("id" ++ " = ?"),
               setParams ++ [JSVal.num 5]),
              DataSource.stampColumns (flatStorage.findColumns 1) true 0
                (.obj [("id", .num 5), ("name", .str "A")])) ∧
      updatePrefix = "UPDATE " ++ "user" ++ " SET " ++ setPart) := by
  have h := claim7_save_path_classification flatStorage 1 userMeta colUserId
    (.obj [("name", .str "A")]) 0 { insertId := .num 9 } rfl rfl rfl rfl
    (by intro c hc hname
        fin_cases hc <;> simp_all [colUserId, colUserName])
  have h2 := claim7_save_path_classification flatStorage 1 userMeta colUserId
    (.obj [("id", .num 5), ("name", .str "A")]) 0 { insertId := .undef } rfl rfl rfl rfl
    (by intro c hc hname
        fin_cases hc <;> simp_all [colUserId, colUserName])
  constructor
  · obtain ⟨names, params, entityAfter, heq, hset, -⟩ := h.1 rfl
    exact ⟨names, params, entityAfter, heq, hset rfl⟩
  · exact h2.2 5 rfl (by decide)

/-! ## Claim C6 -/

theorem selectSoftDeleteClauses_withDeleted (storage : Storage) (table : EntityMeta) :
    SqlGenerator.selectSoftDeleteClauses storage table true = [] := rfl

theorem selectSoftDeleteClauses_of_none (storage : Storage) (table : EntityMeta)
    (h : (storage.findColumns table.target).find? (·.mode = some "deleteDate") = none) :
    SqlGenerator.selectSoftDeleteClauses storage table false = [] := by
  unfold SqlGenerator.selectSoftDeleteClauses
  rw [h]
  rfl

theorem selectSoftDeleteClauses_of_some (storage : Storage) (table : EntityMeta)
    (dc : ColumnMeta)
    (h : (storage.findColumns table.target).find? (·.mode = some "deleteDate") = some dc) :
    SqlGenerator.selectSoftDeleteClauses storage table false =
      [table.tableName ++ "." ++ colSqlName dc ++ " IS NULL"] := by
  unfold SqlGenerator.selectSoftDeleteClauses
  rw [h]
  rfl

theorem selectWhere_none (storage : Storage) (table : EntityMeta) (wd : Bool) :
    SqlGenerator.selectWhere storage table none wd =
      .ok (SqlGenerator.selectSoftDeleteClauses storage table wd, []) := rfl

theorem selectWhere_some_empty (storage : Storage) (table : EntityMeta) (wd : Bool)
    (w : List (String × JSVal)) (hw : ¬w.length > 0) :
    SqlGenerator.selectWhere storage table (some w) wd =
      .ok (SqlGenerator.selectSoftDeleteClauses storage table wd, []) := by
  unfold SqlGenerator.selectWhere
  dsimp only
  rw [if_neg hw]
  rfl

theorem selectWhere_some_ok (storage : Storage) (table : EntityMeta) (wd : Bool)
    (w : List (String × JSVal)) (clause : String) (values : List JSVal)
    (hw : w.length > 0) (hbc : buildConditions w = .ok (clause, values)) :
    SqlGenerator.selectWhere storage table (some w) wd =
      (if clause ≠ "" then
        .ok (SqlGenerator.selectSoftDeleteClauses storage table wd ++ [clause], values)
       else .ok (SqlGenerator.selectSoftDeleteClauses storage table wd, [])) := by
  unfold SqlGenerator.selectWhere
  dsimp only
  rw [if_pos hw, hbc]
  rfl

theorem selectWhere_some_error (storage : Storage) (table : EntityMeta) (wd : Bool)
    (w : List (String × JSVal)) (e : String)
    (hw : w.length > 0) (hbc : buildConditions w = .error e) :
    SqlGenerator.selectWhere storage table (some w) wd = .error e := by
  unfold SqlGenerator.selectWhere
  dsimp only
  rw [if_pos hw, hbc]
  rfl

/-- `selectWhere` under any `withDeleted` flag is the soft-delete clauses of
that flag followed by the caller's conditions. -/
theorem selectWhere_eq (storage : Storage) (table : EntityMeta)
    (whereObj : Option (List (String × JSVal))) (wd : Bool) (cs : List String)
    (ps : List JSVal)
    (h : SqlGenerator.selectWhere storage table whereObj wd = .ok (cs, ps)) :
    ∃ callerCs,
      cs = SqlGenerator.selectSoftDeleteClauses storage table wd ++ callerCs ∧
      ∀ wd', SqlGenerator.selectWhere storage table whereObj wd' =
        .ok (SqlGenerator.selectSoftDeleteClauses storage table wd' ++ callerCs, ps) := by
  cases whereObj with
  | none =>
      rw [selectWhere_none] at h
      obtain ⟨hcs, hps⟩ := Prod.mk.injEq .. ▸ Except.ok.inj h
      refine ⟨[], by simp [← hcs], fun wd' => ?_⟩
      rw [selectWhere_none, ← hps]
      simp
  | some w =>
      by_cases hw : w.length > 0
      · cases hbc : buildConditions w with
        | error e =>
            rw [selectWhere_some_error storage table wd w e hw hbc] at h
            exact absurd h (by simp)
        | ok cv =>
            obtain ⟨clause, values⟩ := cv
            rw [selectWhere_some_ok storage table wd w clause values hw hbc] at h
            by_cases hcl : clause ≠ ""
            · rw [if_pos hcl] at h
              obtain ⟨hcs, hps⟩ := Prod.mk.injEq .. ▸ Except.ok.inj h
              refine ⟨[clause], hcs.symm, fun wd' => ?_⟩
              rw [selectWhere_some_ok storage table wd' w clause values hw hbc,
                  if_pos hcl, hps]
            · rw [if_neg hcl] at h
              obtain ⟨hcs, hps⟩ := Prod.mk.injEq .. ▸ Except.ok.inj h
              refine ⟨[], by simp [← hcs], fun wd' => ?_⟩
              rw [selectWhere_some_ok storage table wd' w clause values hw hbc,
                  if_neg hcl, ← hps]
              simp
      · rw [selectWhere_some_empty storage table wd w hw] at h
        obtain ⟨hcs, hps⟩ := Prod.mk.injEq .. ▸ Except.ok.inj h
        refine ⟨[], by simp [← hcs], fun wd' => ?_⟩
        rw [selectWhere_some_empty storage table wd' w hw, ← hps]
        simp

/-- C6: for every generated SELECT, when `withDeleted` is not set and the
primary table has a soft-delete column, the condition
`<table>.<softDeleteColumn> IS NULL` is placed in front of the caller's
conditions and AND-combined into the WHERE clause; when `withDeleted` is set,
or the type has no soft-delete column, the WHERE clause holds exactly the
caller's conditions and no such condition is injected.  Parameters are
unaffected either way. -/
theorem claim6_soft_delete_filtering (storage : Storage) (table : EntityMeta)
    (whereObj : Option (List (String × JSVal))) (relations : List String)
    (order : Option (List (String × JSVal))) (take skip : Option Int)
    (selectCols : Option (List String)) (cs : List String) (ps : List JSVal)
    (h : SqlGenerator.selectWhere storage table whereObj true = .ok (cs, ps)) :
    ((∀ dc,
      (storage.findColumns table.target).find? (·.mode = some "deleteDate") = some dc →
      SqlGenerator.selectWhere storage table whereObj false =
        .ok ((table.tableName ++ "." ++ colSqlName dc ++ " IS NULL") :: cs, ps)) ∧
     ((storage.findColumns table.target).find? (·.mode = some "deleteDate") = none →
      SqlGenerator.selectWhere storage table whereObj false = .ok (cs, ps))) ∧
    (∀ wd cs' ps', SqlGenerator.selectWhere storage table whereObj wd = .ok (cs', ps') →
      SqlGenerator.select storage table whereObj relations order take skip selectCols wd =
        .ok (SqlGenerator.selectPrefix storage table relations selectCols ++
             (if cs'.length > 0 then " WHERE " ++ String.intercalate " AND " cs' else "") ++
             SqlGenerator.selectSuffix order take skip, ps')) := by
  obtain ⟨callerCs, hcs, hall⟩ := selectWhere_eq storage table whereObj true cs ps h
  rw [selectSoftDeleteClauses_withDeleted] at hcs
  simp only [List.nil_append] at hcs
  subst hcs
  constructor
  · constructor
    · intro dc hdc
      rw [hall false, selectSoftDeleteClauses_of_some storage table dc hdc]
      rfl
    · intro hnone
      rw [hall false, selectSoftDeleteClauses_of_none storage table hnone]
      rfl
  · intro wd cs' ps' h'
    unfold SqlGenerator.select
    rw [h']
    rfl

/-- C6 witness: the soft-delete filter evaluated on the concrete `User`
schema with a `deletedAt` column — `withDeleted` omits the condition,
its absence injects it in front of the caller's filter, and the full SELECT
text AND-combines it. -/
theorem claim6_soft_delete_filtering_witness :
    SqlGenerator.selectWhere softStorage userMeta (some [("name", .str "A")]) false =
      .ok (("user" ++ "." ++ "deletedAt" ++ " IS NULL") :: ["name = ?"], [.str "A"]) ∧
    SqlGenerator.select softStorage userMeta (some [("name", .str "A")]) [] none none none
        none false =
      .ok (SqlGenerator.selectPrefix softStorage userMeta [] none ++
           (" WHERE " ++
             String.intercalate " AND " ["user.deletedAt IS NULL", "name = ?"]) ++
           SqlGenerator.selectSuffix none none none, [.str "A"]) ∧
    SqlGenerator.selectWhere softStorage userMeta (some [("name", .str "A")]) true =
      .ok (["name = ?"], [.str "A"]) := by
  have h := claim6_soft_delete_filtering softStorage userMeta (some [("name", .str "A")])
    [] none none none none ["name = ?"] [.str "A"] rfl
  refine ⟨h.1.1 colUserDeletedAt rfl, ?_, rfl⟩
  have h2 := h.2 false ["user.deletedAt IS NULL", "name = ?"] [.str "A"]
    (h.1.1 colUserDeletedAt rfl)
  rw [h2]
  rfl

/-! ## Claim C8 -/

/-- C8: for a one-to-many relation requested as an eager join (whose related
type resolves to a registered table), the join's FK column name comes from
scanning the related type's relations for a many-to-one relation whose
lazily-resolved type is the owner type: the first such relation's explicit
join-column name — or `<itsPropertyName>Id` — is used; when no such inverse
relation exists the fixed placeholder `foreignKey` is emitted in the join. -/
theorem claim8_one_to_many_fk_resolution (storage : Storage) (md : EntityMeta)
    (relationName : String) (relation : RelationMeta) (rmeta : EntityMeta)
    (hkind : relation.relationType = .oneToMany)
    (hres : (resolveTypeRef relation.type).bind (fun c => storage.findTable c) = some rmeta) :
    (∀ matching,
      (storage.findRelations rmeta.target).find? (fun r =>
          resolveTypeRef r.type = some md.target ∧ r.relationType = .manyToOne) =
        some matching →
      SqlGenerator.selectJoinForRelation storage md relationName relation =
        " LEFT JOIN " ++ rmeta.tableName ++ " ON " ++ rmeta.tableName ++ "." ++
          orName matching.joinColumnName (matching.propertyName ++ "Id") ++
          " = " ++ md.tableName ++ ".id") ∧
    ((storage.findRelations rmeta.target).find? (fun r =>
          resolveTypeRef r.type = some md.target ∧ r.relationType = .manyToOne) = none →
      SqlGenerator.selectJoinForRelation storage md relationName relation =
        " LEFT JOIN " ++ rmeta.tableName ++ " ON " ++ rmeta.tableName ++ "." ++
          "foreignKey" ++ " = " ++ md.tableName ++ ".id") := by
  constructor
  · intro matching hfind
    unfold SqlGenerator.selectJoinForRelation
    rw [hres, hkind]
    simp only [reduceCtorEq, false_and, or_false, if_false, if_true, hfind]
  · intro hfind
    unfold SqlGenerator.selectJoinForRelation
    rw [hres, hkind]
    simp only [reduceCtorEq, false_and, or_false, if_false, if_true, hfind]

/-- C8 witness: the join resolution evaluated on the concrete schema — with
the inverse `Post.user` relation present the FK is `userId`; with the
inverse missing the placeholder `foreignKey` is emitted. -/
theorem claim8_one_to_many_fk_resolution_witness :
    SqlGenerator.selectJoinForRelation demoStorage userMeta "posts" relUserPosts =
      " LEFT JOIN " ++ "post" ++ " ON " ++ "post" ++ "." ++
        orName relPostUser.joinColumnName (relPostUser.propertyName ++ "Id") ++
        " = " ++ "user" ++ ".id" ∧
    SqlGenerator.selectJoinForRelation brokenStorage userMeta "posts" relUserPosts =
      " LEFT JOIN " ++ "post" ++ " ON " ++ "post" ++ "." ++ "foreignKey" ++
        " = " ++ "user" ++ ".id" := by
  exact ⟨(claim8_one_to_many_fk_resolution demoStorage userMeta "posts" relUserPosts
            postMeta rfl rfl).1 relPostUser rfl,
         (claim8_one_to_many_fk_resolution brokenStorage userMeta "posts" relUserPosts
            postMeta rfl rfl).2 rfl⟩

/-! ## Claim C10 -/

/-- C10: every relation-dependent statement hard-codes the related table's
primary-key column as the literal `id`, whatever column the related type
declares primary: (a) a many-to-one eager join compares
`<relatedTable>.id` to the owner's FK column; (b) `createTable` emits
`FOREIGN KEY (<fk>) REFERENCES <relatedTable>(id)`; (c) the FK value
injected on save is read from the related entity's literal `id` property;
(d) junction rows are built from each related item's literal `id` property
(the owner side falls back to `id` when no primary column name is known).
The quantification over `storage` includes every choice of declared primary
column on the related type. -/
theorem claim10_related_pk_is_literal_id :
    (∀ (storage : Storage) (md : EntityMeta) (relationName : String)
       (relation : RelationMeta) (rmeta : EntityMeta),
      relation.relationType = .manyToOne →
      (resolveTypeRef relation.type).bind (fun c => storage.findTable c) = some rmeta →
      SqlGenerator.selectJoinForRelation storage md relationName relation =
        " LEFT JOIN " ++ rmeta.tableName ++ " ON " ++ rmeta.tableName ++ ".id = " ++
          md.tableName ++ "." ++ orName relation.joinColumnName (relationName ++ "Id")) ∧
    (∀ (storage : Storage) (md : EntityMeta) (relation : RelationMeta) (rmeta : EntityMeta),
      storage.findRelations md.target = [relation] →
      relation.relationType = .manyToOne →
      (resolveTypeRef relation.type).bind (fun c => storage.findTable c) = some rmeta →
      SqlGenerator.createTableRelationDefs storage md =
        [orName relation.joinColumnName (relation.propertyName ++ "Id") ++ " INTEGER",
         "FOREIGN KEY (" ++ orName relation.joinColumnName (relation.propertyName ++ "Id") ++
           ") REFERENCES " ++ rmeta.tableName ++ "(id)" ++
           (match relation.options.bind (·.onDelete) with
            | some action => " ON DELETE " ++ action
            | none => "")]) ∧
    (∀ (storage : Storage) (target : Nat) (relation : RelationMeta) (e : JSVal)
       (persist : List (String × JSVal)),
      storage.findRelations target = [relation] →
      relation.relationType = .manyToOne →
      truthy (getProp e relation.propertyName) = true →
      lookupField (DataSource.injectFks storage target e persist)
          (orName relation.joinColumnName (relation.propertyName ++ "Id")) =
        getProp (getProp e relation.propertyName) "id") ∧
    (∀ (storage : Storage) (table : EntityMeta) (target : Nat) (relation : RelationMeta)
       (e : JSVal) (pkName : Option String) (items : List JSVal) (rmeta : EntityMeta),
      storage.findRelations target = [relation] →
      relation.relationType = .manyToMany →
      getProp e relation.propertyName = .arr items →
      items.length > 0 →
      (resolveTypeRef relation.type).bind (fun c => storage.findTable c) = some rmeta →
      DataSource.junctionStatements storage table target e pkName =
        items.flatMap fun item =>
          if truthy (getProp item "id") ∧ truthy (getProp e (orName pkName "id")) then
            [SqlGenerator.insertJunction
              (orName relation.joinTableName (table.tableName ++ "_" ++ rmeta.tableName))
              (getProp e (orName pkName "id")) (getProp item "id")]
          else []) := by
  refine ⟨?_, ?_, ?_, ?_⟩
  · intro storage md relationName relation rmeta hkind hres
    unfold SqlGenerator.selectJoinForRelation
    rw [hres, hkind]
    simp only [reduceCtorEq, if_false, and_true, false_and, or_false, true_or, if_true,
      eq_self_iff_true, true_and, or_true]
  · intro storage md relation rmeta hrels hkind hres
    unfold SqlGenerator.createTableRelationDefs
    rw [hrels, List.flatMap_cons, List.flatMap_nil, List.append_nil]
    dsimp only
    rw [hkind]
    simp only [reduceCtorEq, false_and, or_false, true_or, if_true, eq_self_iff_true,
      true_and, or_true]
    rw [hres]
  · intro storage target relation e persist hrels hkind htruthy
    unfold DataSource.injectFks
    rw [hrels, List.foldl_cons, List.foldl_nil, hkind]
    simp only [reduceCtorEq, false_and, or_false, true_or, if_true, eq_self_iff_true,
      true_and, or_true, htruthy]
    exact lookupField_setField_self _ _ _
  · intro storage table target relation e pkName items rmeta hrels hkind harr hlen hres
    unfold DataSource.junctionStatements
    rw [hrels, List.flatMap_cons, List.flatMap_nil, List.append_nil, hkind, harr]
    simp only [eq_self_iff_true, if_true, hlen, if_pos]
    rw [hres]

/-- C10 witness: the four statements evaluated against `Tag`, whose declared
primary column is `uuid`: the join, FK clause, save-time FK injection and
junction rows all still reference the literal `id`. -/
theorem claim10_related_pk_is_literal_id_witness :
    SqlGenerator.selectJoinForRelation tagOwnerStorage postMeta "tag" relPostTag =
      " LEFT JOIN " ++ "tag" ++ " ON " ++ "tag" ++ ".id = " ++ "post" ++ "." ++
        orName relPostTag.joinColumnName ("tag" ++ "Id") ∧
    SqlGenerator.createTableRelationDefs tagOwnerStorage postMeta =
      [orName relPostTag.joinColumnName (relPostTag.propertyName ++ "Id") ++ " INTEGER",
       "FOREIGN KEY (" ++
         orName relPostTag.joinColumnName (relPostTag.propertyName ++ "Id") ++
         ") REFERENCES " ++ "tag" ++ "(id)" ++
         (match relPostTag.options.bind (·.onDelete) with
          | some action => " ON DELETE " ++ action
          | none => "")] ∧
    lookupField
        (DataSource.injectFks tagOwnerStorage 2
          (.obj [("tag", .obj [("id", .num 7), ("uuid", .str "t1")])]) [])
        (orName relPostTag.joinColumnName (relPostTag.propertyName ++ "Id")) =
      getProp (getProp (.obj [("tag", .obj [("id", .num 7), ("uuid", .str "t1")])]) "tag")
        "id" ∧
    DataSource.junctionStatements m2mStorage userMeta 1
        (.obj [("id", .num 1), ("tags", .arr [.obj [("id", .num 7), ("uuid", .str "t1")]])])
        (some "id") =
      [.obj [("id", .num 7), ("uuid", .str "t1")]].flatMap fun item =>
        if truthy (getProp item "id") ∧
           truthy (getProp (.obj [("id", .num 1),
             ("tags", .arr [.obj [("id", .num 7), ("uuid", .str "t1")]])])
             (orName (some "id") "id")) then
          [SqlGenerator.insertJunction
            (orName relUserTags.joinTableName ("user" ++ "_" ++ "tag"))
            (getProp (.obj [("id", .num 1),
              ("tags", .arr [.obj [("id", .num 7), ("uuid", .str "t1")]])])
              (orName (some "id") "id"))
            (getProp item "id")]
        else [] := by
  have h := claim10_related_pk_is_literal_id
  exact ⟨h.1 tagOwnerStorage postMeta "tag" relPostTag tagMeta rfl rfl,
         h.2.1 tagOwnerStorage postMeta relPostTag tagMeta rfl rfl rfl,
         h.2.2.1 tagOwnerStorage 2 relPostTag
           (.obj [("tag", .obj [("id", .num 7), ("uuid", .str "t1")])]) [] rfl rfl rfl,
         h.2.2.2 m2mStorage userMeta 1 relUserTags
           (.obj [("id", .num 1),
             ("tags", .arr [.obj [("id", .num 7), ("uuid", .str "t1")]])])
           (some "id") [.obj [("id", .num 7), ("uuid", .str "t1")]] tagMeta
           rfl rfl rfl (by decide) rfl⟩

/-! ## Claim C4 — supporting lemmas -/

theorem strictEq_self_of_prim (a : JSVal) (ha : isPrimitive a = true) :
    strictEq a a = true := by
  cases a <;> simp_all [strictEq, isPrimitive]

theorem isObjVal_of_getProp_arr (e : JSVal) (k : String) (l : List JSVal)
    (h : getProp e k = .arr l) : isObjVal e = true := by
  cases e <;> simp_all [getProp, isObjVal]

theorem mapGet_mem (m : List (JSVal × JSVal)) (k : JSVal) (e : JSVal)
    (h : DataSource.mapGet m k = some e) :
    ∃ k0, (k0, e) ∈ m ∧ strictEq k0 k = true := by
  unfold DataSource.mapGet at h
  cases hf : m.find? (fun kv => strictEq kv.1 k) with
  | none => rw [hf] at h; cases h
  | some kv =>
      rw [hf] at h
      obtain rfl : kv.2 = e := Option.some.inj h
      exact ⟨kv.1, List.mem_of_find?_eq_some hf, by
        have := List.find?_some hf
        simpa using this⟩

theorem mapGet_none_iff (m : List (JSVal × JSVal)) (k : JSVal) :
    DataSource.mapGet m k = none ↔ DataSource.keyInSeen (m.map (·.1)) k = false := by
  unfold DataSource.mapGet DataSource.keyInSeen
  simp [List.find?_eq_none, List.any_eq_false]

theorem mapSet_keys_of_found (m : List (JSVal × JSVal)) (k : JSVal) (v e0 : JSVal)
    (h : DataSource.mapGet m k = some e0) :
    (DataSource.mapSet m k v).map (·.1) = m.map (·.1) := by
  induction m with
  | nil => cases h
  | cons kv rest ih =>
      have hcons : DataSource.mapSet (kv :: rest) k v =
          if strictEq kv.1 k then (k, v) :: rest else kv :: DataSource.mapSet rest k v := rfl
      unfold DataSource.mapGet at h
      rw [List.find?_cons] at h
      by_cases hs : strictEq kv.1 k = true
      · have hk : kv.1 = k := ((strictEq_eq_true_iff kv.1 k).mp hs).2
        rw [hcons, if_pos hs]
        simp [hk]
      · have hs' : strictEq kv.1 k = false := by simpa using hs
        rw [hs'] at h
        dsimp only at h
        rw [hcons, if_neg hs]
        simp only [List.map_cons]
        rw [ih h]

theorem mapSet_mem (m : List (JSVal × JSVal)) (k : JSVal) (v : JSVal)
    (kv' : JSVal × JSVal) (h : kv' ∈ DataSource.mapSet m k v) :
    kv' = (k, v) ∨ kv' ∈ m := by
  induction m with
  | nil =>
      unfold DataSource.mapSet at h
      simp at h
      exact Or.inl h
  | cons kv rest ih =>
      unfold DataSource.mapSet at h
      by_cases hs : strictEq kv.1 k = true
      · rw [if_pos hs] at h
        rcases List.mem_cons.mp h with h1 | h1
        · exact Or.inl h1
        · exact Or.inr (List.mem_cons_of_mem _ h1)
      · rw [if_neg hs] at h
        rcases List.mem_cons.mp h with h1 | h1
        · exact Or.inr (h1 ▸ List.mem_cons_self _ _)
        · rcases ih h1 with h2 | h2
          · exact Or.inl h2
          · exact Or.inr (List.mem_cons_of_mem _ h2)

theorem isObjVal_foldl {α : Type} (f : JSVal → α → JSVal)
    (hf : ∀ e a, isObjVal (f e a) = isObjVal e) (l : List α) (e : JSVal) :
    isObjVal (l.foldl f e) = isObjVal e := by
  induction l generalizing e with
  | nil => rfl
  | cons a rest ih => rw [List.foldl_cons, ih, hf]

theorem isObjVal_buildScalarStep (row : List (String × JSVal)) (e : JSVal)
    (col : ColumnMeta) : isObjVal (DataSource.buildScalarStep row e col) = isObjVal e := by
  unfold DataSource.buildScalarStep
  dsimp only
  split_ifs <;> simp [isObjVal_setProp]

theorem isObjVal_buildRelatedStep (rn : String) (row : List (String × JSVal)) (e : JSVal)
    (col : ColumnMeta) :
    isObjVal (DataSource.buildRelatedStep rn row e col) = isObjVal e := by
  unfold DataSource.buildRelatedStep
  dsimp only
  split_ifs <;> simp [isObjVal_setProp]

theorem isObjVal_initRelationStep (storage : Storage) (target : Nat) (e : JSVal)
    (rn : String) :
    isObjVal (DataSource.initRelationStep storage target e rn) = isObjVal e := by
  unfold DataSource.initRelationStep
  cases (storage.findRelations target).find? (·.propertyName = rn) with
  | none => rfl
  | some relation => dsimp only; split_ifs <;> simp [isObjVal_setProp]

theorem isObjVal_buildRootEntity (storage : Storage) (target : Nat)
    (columns : List ColumnMeta) (relations : List String) (row : List (String × JSVal)) :
    isObjVal (DataSource.buildRootEntity storage target columns relations row) = true := by
  unfold DataSource.buildRootEntity
  rw [isObjVal_foldl _ (isObjVal_initRelationStep storage target),
      isObjVal_foldl _ (isObjVal_buildScalarStep row)]
  rfl

theorem getProp_buildRelatedStep_ne (rn : String) (row : List (String × JSVal)) (e : JSVal)
    (col : ColumnMeta) (p : String) (h : col.propertyName ≠ p) :
    getProp (DataSource.buildRelatedStep rn row e col) p = getProp e p := by
  unfold DataSource.buildRelatedStep
  dsimp only
  split_ifs <;> simp [getProp_setProp_ne _ _ _ _ h]

theorem getProp_relatedFold_frame (rn : String) (row : List (String × JSVal))
    (rcols : List ColumnMeta) (e : JSVal) (p : String)
    (h : ∀ c ∈ rcols, c.propertyName ≠ p) :
    getProp (rcols.foldl (DataSource.buildRelatedStep rn row) e) p = getProp e p := by
  induction rcols generalizing e with
  | nil => rfl
  | cons c rest ih =>
      rw [List.foldl_cons, ih _ fun c' hc' => h c' (List.mem_cons_of_mem _ hc'),
          getProp_buildRelatedStep_ne _ _ _ _ _ (h c (List.mem_cons_self _ _))]

/-- The decoded related entity's primary-key property holds exactly the
transformed alias value of the row, provided the alias value is defined and
no *different* related column shares the primary-key column's property
name. -/
theorem getProp_buildRelatedEntity (rcols : List ColumnMeta) (rn : String)
    (row : List (String × JSVal)) (rpc : ColumnMeta)
    (hmem : rpc ∈ rcols)
    (huniq : ∀ c ∈ rcols, c.propertyName = rpc.propertyName → c = rpc)
    (hdef : ¬isUndef (DataSource.rowGet row (rn ++ "_" ++ colSqlName rpc)) = true) :
    getProp (DataSource.buildRelatedEntity rcols rn row) rpc.propertyName =
      DataSource.transformValue rpc (DataSource.rowGet row (rn ++ "_" ++ colSqlName rpc)) := by
  have aux : ∀ (cols : List ColumnMeta) (e0 : JSVal), isObjVal e0 = true →
      rpc ∈ cols → (∀ c ∈ cols, c.propertyName = rpc.propertyName → c = rpc) →
      getProp (cols.foldl (DataSource.buildRelatedStep rn row) e0) rpc.propertyName =
        DataSource.transformValue rpc (DataSource.rowGet row (rn ++ "_" ++ colSqlName rpc)) := by
    intro cols
    induction cols with
    | nil => intro e0 _ hmem' _; cases hmem'
    | cons c rest ih =>
        intro e0 hobj hmem' huniq'
        rw [List.foldl_cons]
        by_cases hrest : rpc ∈ rest
        · exact ih _ (by rw [isObjVal_buildRelatedStep]; exact hobj) hrest
            fun c' hc' => huniq' c' (List.mem_cons_of_mem _ hc')
        · have hc : c = rpc := by
            rcases List.mem_cons.mp hmem' with h1 | h1
            · exact h1.symm
            · exact absurd h1 hrest
          subst hc
          have hfresh : ∀ c' ∈ rest, c'.propertyName ≠ c.propertyName := by
            intro c' hc' heq
            exact hrest ((huniq' c' (List.mem_cons_of_mem _ hc') heq) ▸ hc')
          rw [getProp_relatedFold_frame _ _ _ _ _ hfresh]
          unfold DataSource.buildRelatedStep
          dsimp only
          rw [if_pos (by simpa using hdef)]
          exact getProp_setProp_self _ _ _ hobj
  exact aux rcols (.obj []) rfl hmem huniq

theorem getProp_initRelationStep_ne (storage : Storage) (target : Nat) (e : JSVal)
    (rn p : String) (h : rn ≠ p) :
    getProp (DataSource.initRelationStep storage target e rn) p = getProp e p := by
  unfold DataSource.initRelationStep
  cases (storage.findRelations target).find? (·.propertyName = rn) with
  | none => rfl
  | some relation => dsimp only; split_ifs <;> simp [getProp_setProp_ne _ _ _ _ h]

theorem getProp_initFold_frame (storage : Storage) (target : Nat) (rels : List String)
    (e : JSVal) (p : String) (h : ∀ rn ∈ rels, rn ≠ p) :
    getProp (rels.foldl (DataSource.initRelationStep storage target) e) p = getProp e p := by
  induction rels generalizing e with
  | nil => rfl
  | cons rn rest ih =>
      rw [List.foldl_cons, ih _ fun rn' hrn' => h rn' (List.mem_cons_of_mem _ hrn'),
          getProp_initRelationStep_ne _ _ _ _ _ (h rn (List.mem_cons_self _ _))]

/-- After entity construction, a requested to-many relation property holds
the empty array. -/
theorem getProp_buildRootEntity_toMany (storage : Storage) (target : Nat)
    (columns : List ColumnMeta) (relations : List String) (row : List (String × JSVal))
    (rn : String) (rel : RelationMeta)
    (hmem : rn ∈ relations)
    (hrel : (storage.findRelations target).find? (·.propertyName = rn) = some rel)
    (hkind : rel.relationType = .oneToMany ∨ rel.relationType = .manyToMany) :
    getProp (DataSource.buildRootEntity storage target columns relations row) rn =
      .arr [] := by
  unfold DataSource.buildRootEntity
  have aux : ∀ (rels : List String) (e0 : JSVal), isObjVal e0 = true → rn ∈ rels →
      getProp (rels.foldl (DataSource.initRelationStep storage target) e0) rn = .arr [] := by
    intro rels
    induction rels with
    | nil => intro e0 _ hmem'; cases hmem'
    | cons r rest ih =>
        intro e0 hobj hmem'
        rw [List.foldl_cons]
        by_cases hrest : rn ∈ rest
        · exact ih _ (by rw [isObjVal_initRelationStep]; exact hobj) hrest
        · have hr : r = rn := by
            rcases List.mem_cons.mp hmem' with h1 | h1
            · exact h1.symm
            · exact absurd h1 hrest
          subst hr
          rw [getProp_initFold_frame _ _ _ _ _
                fun rn' hrn' heq => hrest (by rw [← heq]; exact hrn')]
          unfold DataSource.initRelationStep
          rw [hrel]
          dsimp only
          rw [if_pos hkind]
          exact getProp_setProp_self _ _ _ hobj
  exact aux relations _ (by rw [isObjVal_foldl _ (isObjVal_buildScalarStep row)]; rfl) hmem

/-- A successful `processRelationForRow` only ever rewrites the processed
relation's own property. -/
theorem processRelationForRow_getProp_ne (storage : Storage) (target : Nat)
    (row : List (String × JSVal)) (e e' : JSVal) (rn p : String) (h : rn ≠ p)
    (hstep : DataSource.processRelationForRow storage target row e rn = some e') :
    getProp e' p = getProp e p := by
  unfold DataSource.processRelationForRow at hstep
  cases hfind : (storage.findRelations target).find? (·.propertyName = rn) with
  | none =>
      rw [hfind] at hstep
      cases Option.some.inj hstep
      rfl
  | some relation =>
      rw [hfind] at hstep
      dsimp only at hstep
      cases hrpc : ((DataSource.relatedColumnsOf storage relation).find?
          (·.options.primary) <|> (DataSource.relatedColumnsOf storage relation).head?) with
      | none => rw [hrpc] at hstep; cases hstep
      | some rpc =>
          rw [hrpc] at hstep
          dsimp only at hstep
          split_ifs at hstep with hguard hkind
          · cases harr : getProp e rn with
            | arr elems =>
                rw [harr] at hstep
                dsimp only at hstep
                split_ifs at hstep with hdup
                · cases Option.some.inj hstep; rfl
                · cases Option.some.inj hstep
                  exact getProp_setProp_ne _ _ _ _ h
            | undef => rw [harr] at hstep; cases hstep
            | null => rw [harr] at hstep; cases hstep
            | bool b => rw [harr] at hstep; cases hstep
            | num n => rw [harr] at hstep; cases hstep
            | str s => rw [harr] at hstep; cases hstep
            | date t => rw [harr] at hstep; cases hstep
            | obj fs => rw [harr] at hstep; cases hstep
            | opNode op v => rw [harr] at hstep; cases hstep
          · cases Option.some.inj hstep
            exact getProp_setProp_ne _ _ _ _ h
          · cases Option.some.inj hstep; rfl

/-- The relations loop of one row preserves every property outside the
requested relation names. -/
theorem relsFold_getProp_notin (storage : Storage) (target : Nat)
    (row : List (String × JSVal)) (rels : List String) (e e' : JSVal) (p : String)
    (h : ∀ rn ∈ rels, rn ≠ p)
    (hfold : rels.foldlM (DataSource.processRelationForRow storage target row) e =
      some e') :
    getProp e' p = getProp e p := by
  induction rels generalizing e with
  | nil =>
      rw [List.foldlM_nil] at hfold
      cases Option.some.inj hfold
      rfl
  | cons rn rest ih =>
      rw [List.foldlM_cons] at hfold
      obtain ⟨e1, hstep, hrest⟩ := Option.bind_eq_some.mp hfold
      rw [ih e1 (fun rn' hrn' => h rn' (List.mem_cons_of_mem _ hrn')) hrest]
      exact processRelationForRow_getProp_ne storage target row e e1 rn p
        (h rn (List.mem_cons_self _ _)) hstep

theorem findOrHead_mem {l : List ColumnMeta} {p : ColumnMeta → Bool} {x : ColumnMeta}
    (h : (l.find? p <|> l.head?) = some x) : x ∈ l := by
  cases hf : l.find? p with
  | some y =>
      rw [hf] at h
      cases Option.some.inj h
      exact List.mem_of_find?_eq_some hf
  | none =>
      rw [hf] at h
      have hh : l.head? = some x := by simpa using h
      exact List.mem_of_mem_head? hh

theorem arrFact_of_getProp_eq (rn rpcName : String) (e e' : JSVal)
    (h : getProp e' rn = getProp e rn) (hfact : DataSource.arrFact rn rpcName e) :
    DataSource.arrFact rn rpcName e' := by
  obtain ⟨elems, harr, hprops, hnodup⟩ := hfact
  exact ⟨elems, h.trans harr, hprops, hnodup⟩

/-- One processing step of the relation `rn` itself preserves the to-many
array invariant: a duplicate related key leaves the array alone, a fresh one
appends an element carrying the row's primitive alias value. -/
theorem processRelationForRow_arrFact (storage : Storage) (target : Nat)
    (row : List (String × JSVal)) (rn : String) (rel : RelationMeta) (rpc : ColumnMeta)
    (hfind : (storage.findRelations target).find? (·.propertyName = rn) = some rel)
    (hkindRel : rel.relationType = .oneToMany ∨ rel.relationType = .manyToMany)
    (hrpc : ((DataSource.relatedColumnsOf storage rel).find? (·.options.primary) <|>
             (DataSource.relatedColumnsOf storage rel).head?) = some rpc)
    (huniq : ∀ c ∈ DataSource.relatedColumnsOf storage rel,
      c.propertyName = rpc.propertyName → c = rpc)
    (hid : ∀ v, DataSource.transformValue rpc v = v)
    (hprimrow : isPrimitive (DataSource.rowGet row (rn ++ "_" ++ colSqlName rpc)) = true)
    (e e' : JSVal)
    (hstep : DataSource.processRelationForRow storage target row e rn = some e')
    (hfact : DataSource.arrFact rn rpc.propertyName e) :
    DataSource.arrFact rn rpc.propertyName e' := by
  unfold DataSource.processRelationForRow at hstep
  rw [hfind] at hstep
  dsimp only at hstep
  rw [hrpc] at hstep
  dsimp only at hstep
  split_ifs at hstep with hguard
  · obtain ⟨elems, harr, hprops, hnodup⟩ := hfact
    rw [harr] at hstep
    dsimp only at hstep
    split_ifs at hstep with hdup
    · cases Option.some.inj hstep
      exact ⟨elems, harr, hprops, hnodup⟩
    · cases Option.some.inj hstep
      have hobj : isObjVal e = true := isObjVal_of_getProp_arr e rn elems harr
      have hre : getProp
          (DataSource.buildRelatedEntity (DataSource.relatedColumnsOf storage rel) rn row)
          rpc.propertyName =
          DataSource.rowGet row (rn ++ "_" ++ colSqlName rpc) := by
        rw [getProp_buildRelatedEntity _ _ _ _ (findOrHead_mem hrpc) huniq
              (by simpa using hguard.1), hid]
      refine ⟨elems ++ [DataSource.buildRelatedEntity
          (DataSource.relatedColumnsOf storage rel) rn row],
        getProp_setProp_self _ _ _ hobj, ?_, ?_⟩
      · intro x hx
        rcases List.mem_append.mp hx with hx | hx
        · exact hprops x hx
        · rw [List.mem_singleton.mp hx, hre]
          exact hprimrow
      · rw [List.map_append]
        simp only [List.map_cons, List.map_nil]
        rw [List.nodup_append]
        refine ⟨hnodup, List.nodup_singleton _, ?_⟩
        intro v hv hv'
        rw [List.mem_singleton.mp hv', hre] at hv
        obtain ⟨x, hx, hxv⟩ := List.mem_map.mp hv
        have hfound := List.find?_eq_none.mp (by simpa using hdup) x hx
        rw [hxv] at hfound
        exact hfound (strictEq_self_of_prim _ hprimrow)
  · cases Option.some.inj hstep
    exact hfact

/-- The relations loop of one row preserves the to-many array invariant of
relation `rn`. -/
theorem relsFold_arrFact (storage : Storage) (target : Nat)
    (row : List (String × JSVal)) (rn : String) (rel : RelationMeta) (rpc : ColumnMeta)
    (hfind : (storage.findRelations target).find? (·.propertyName = rn) = some rel)
    (hkindRel : rel.relationType = .oneToMany ∨ rel.relationType = .manyToMany)
    (hrpc : ((DataSource.relatedColumnsOf storage rel).find? (·.options.primary) <|>
             (DataSource.relatedColumnsOf storage rel).head?) = some rpc)
    (huniq : ∀ c ∈ DataSource.relatedColumnsOf storage rel,
      c.propertyName = rpc.propertyName → c = rpc)
    (hid : ∀ v, DataSource.transformValue rpc v = v)
    (hprimrow : isPrimitive (DataSource.rowGet row (rn ++ "_" ++ colSqlName rpc)) = true)
    (rels : List String) (e e' : JSVal)
    (hfold : rels.foldlM (DataSource.processRelationForRow storage target row) e = some e')
    (hfact : DataSource.arrFact rn rpc.propertyName e) :
    DataSource.arrFact rn rpc.propertyName e' := by
  induction rels generalizing e with
  | nil =>
      rw [List.foldlM_nil] at hfold
      cases Option.some.inj hfold
      exact hfact
  | cons r rest ih =>
      rw [List.foldlM_cons] at hfold
      obtain ⟨e1, hstep, hrest⟩ := Option.bind_eq_some.mp hfold
      refine ih e1 hrest ?_
      by_cases hr : r = rn
      · subst hr
        exact processRelationForRow_arrFact storage target row r rel rpc hfind hkindRel
          hrpc huniq hid hprimrow e e1 hstep hfact
      · exact arrFact_of_getProp_eq _ _ _ _
          (processRelationForRow_getProp_ne storage target row e e1 r rn hr hstep) hfact

/-- Shape analysis of one successful materializer row step: a null key skips
the row, a known key re-processes the stored entity's relations in place, a
fresh key appends a newly built entity. -/
theorem mapResultsRow_some (storage : Storage) (target : Nat) (columns : List ColumnMeta)
    (relations : List String) (pkName : String) (m m1 : List (JSVal × JSVal))
    (row : List (String × JSVal))
    (h : DataSource.mapResultsRow storage target columns relations pkName m row = some m1) :
    ((isUndef (DataSource.rowGet row pkName) = true ∨
      isNull (DataSource.rowGet row pkName) = true) ∧ m1 = m) ∨
    (¬(isUndef (DataSource.rowGet row pkName) = true ∨
       isNull (DataSource.rowGet row pkName) = true) ∧
     ((∃ entity e',
        DataSource.mapGet m (DataSource.rowGet row pkName) = some entity ∧
        relations.foldlM (DataSource.processRelationForRow storage target row) entity =
          some e' ∧
        m1 = DataSource.mapSet m (DataSource.rowGet row pkName) e') ∨
      (DataSource.mapGet m (DataSource.rowGet row pkName) = none ∧
       ∃ e',
        relations.foldlM (DataSource.processRelationForRow storage target row)
          (DataSource.buildRootEntity storage target columns relations row) = some e' ∧
        m1 = m ++ [(DataSource.rowGet row pkName, e')]))) := by
  unfold DataSource.mapResultsRow at h
  dsimp only at h
  split_ifs at h with hnull
  · exact Or.inl ⟨hnull, (Option.some.inj h).symm⟩
  · refine Or.inr ⟨hnull, ?_⟩
    cases hget : DataSource.mapGet m (DataSource.rowGet row pkName) with
    | some entity =>
        rw [hget] at h
        obtain ⟨e', hfold, hm1⟩ := Option.bind_eq_some.mp h
        exact Or.inl ⟨entity, e', rfl, hfold, (Option.some.inj hm1).symm⟩
    | none =>
        rw [hget] at h
        obtain ⟨e', hfold, hm1⟩ := Option.bind_eq_some.mp h
        exact Or.inr ⟨rfl, e', hfold, (Option.some.inj hm1).symm⟩

/-- Generic per-entry invariant preservation through the materializer's row
loop: an invariant preserved by re-processing relations and established on
newly built entities holds of every final map entry. -/
theorem foldRows_entries (storage : Storage) (target : Nat) (columns : List ColumnMeta)
    (relations : List String) (pkName : String) (P : JSVal × JSVal → Prop) :
    ∀ (rows : List (List (String × JSVal))) (m0 m : List (JSVal × JSVal)),
    List.foldlM (DataSource.mapResultsRow storage target columns relations pkName) m0 rows =
      some m →
    (∀ row ∈ rows, ∀ (k e e' : JSVal),
      relations.foldlM (DataSource.processRelationForRow storage target row) e = some e' →
      P (k, e) → P (k, e')) →
    (∀ row ∈ rows, ∀ e' : JSVal,
      ¬(isUndef (DataSource.rowGet row pkName) = true ∨
        isNull (DataSource.rowGet row pkName) = true) →
      relations.foldlM (DataSource.processRelationForRow storage target row)
        (DataSource.buildRootEntity storage target columns relations row) = some e' →
      P (DataSource.rowGet row pkName, e')) →
    (∀ kv ∈ m0, P kv) → ∀ kv ∈ m, P kv := by
  intro rows
  induction rows with
  | nil =>
      intro m0 m hfold _ _ hm0
      rw [List.foldlM_nil] at hfold
      cases Option.some.inj hfold
      exact hm0
  | cons row rest ih =>
      intro m0 m hfold hpres hnew hm0
      rw [List.foldlM_cons] at hfold
      obtain ⟨m1, hstep, hrest⟩ := Option.bind_eq_some.mp hfold
      have hm1 : ∀ kv ∈ m1, P kv := by
        rcases mapResultsRow_some storage target columns relations pkName m0 m1 row hstep
          with ⟨_, rfl⟩ | ⟨hnull, ⟨entity, e', hget, hfold1, rfl⟩ | ⟨hget, e', hfold1, rfl⟩⟩
        · exact hm0
        · intro kv hkv
          rcases mapSet_mem _ _ _ _ hkv with rfl | hkv'
          · obtain ⟨k0, hk0mem, hk0eq⟩ := mapGet_mem _ _ _ hget
            have hk0 : k0 = DataSource.rowGet row pkName :=
              ((strictEq_eq_true_iff _ _).mp hk0eq).2
            exact hpres row (List.mem_cons_self _ _) _ entity e' hfold1
              (hk0 ▸ hm0 (k0, entity) hk0mem)
          · exact hm0 kv hkv'
        · intro kv hkv
          rcases List.mem_append.mp hkv with hkv' | hkv'
          · exact hm0 kv hkv'
          · rw [List.mem_singleton.mp hkv']
            exact hnew row (List.mem_cons_self _ _) e' hnull hfold1
      exact ih m1 m hrest
        (fun r hr => hpres r (List.mem_cons_of_mem _ hr))
        (fun r hr => hnew r (List.mem_cons_of_mem _ hr)) hm1

/-- Every final map entry carries a primitive, non-null key. -/
theorem foldRows_keyFacts (storage : Storage) (target : Nat) (columns : List ColumnMeta)
    (relations : List String) (pkName : String)
    (rows : List (List (String × JSVal))) (m0 m : List (JSVal × JSVal))
    (hfold : List.foldlM (DataSource.mapResultsRow storage target columns relations pkName)
      m0 rows = some m)
    (hprim : ∀ row ∈ rows, isPrimitive (DataSource.rowGet row pkName) = true)
    (hm0 : ∀ kv ∈ m0, isPrimitive kv.1 = true ∧ isUndef kv.1 = false ∧ isNull kv.1 = false) :
    ∀ kv ∈ m, isPrimitive kv.1 = true ∧ isUndef kv.1 = false ∧ isNull kv.1 = false := by
  refine foldRows_entries storage target columns relations pkName
    (fun kv => isPrimitive kv.1 = true ∧ isUndef kv.1 = false ∧ isNull kv.1 = false)
    rows m0 m hfold ?_ ?_ hm0
  · intro _ _ k _ _ _ hk
    exact hk
  · intro row hrow e' hnull _
    refine ⟨hprim row hrow, ?_, ?_⟩
    · cases hu : isUndef (DataSource.rowGet row pkName)
      · rfl
      · exact absurd (Or.inl hu) hnull
    · cases hu : isNull (DataSource.rowGet row pkName)
      · rfl
      · exact absurd (Or.inr hu) hnull

/-- The final map's keys are the distinct non-null primary-key values of the
rows in first-seen order, relative to the keys already present. -/
theorem foldRows_keys (storage : Storage) (target : Nat) (columns : List ColumnMeta)
    (relations : List String) (pkName : String) :
    ∀ (rows : List (List (String × JSVal))) (m0 m : List (JSVal × JSVal)),
    List.foldlM (DataSource.mapResultsRow storage target columns relations pkName) m0 rows =
      some m →
    m.map (·.1) = m0.map (·.1) ++ DataSource.firstSeenKeys pkName (m0.map (·.1)) rows := by
  intro rows
  induction rows with
  | nil =>
      intro m0 m hfold
      rw [List.foldlM_nil] at hfold
      cases Option.some.inj hfold
      simp [DataSource.firstSeenKeys]
  | cons row rest ih =>
      intro m0 m hfold
      rw [List.foldlM_cons] at hfold
      obtain ⟨m1, hstep, hrest⟩ := Option.bind_eq_some.mp hfold
      have hfsk : DataSource.firstSeenKeys pkName (m0.map (·.1)) (row :: rest) =
          (let pk := DataSource.rowGet row pkName
           if isUndef pk ∨ isNull pk then
             DataSource.firstSeenKeys pkName (m0.map (·.1)) rest
           else if DataSource.keyInSeen (m0.map (·.1)) pk then
             DataSource.firstSeenKeys pkName (m0.map (·.1)) rest
           else pk :: DataSource.firstSeenKeys pkName (m0.map (·.1) ++ [pk]) rest) := rfl
      rcases mapResultsRow_some storage target columns relations pkName m0 m1 row hstep
        with ⟨hnull, rfl⟩ | ⟨hnull, ⟨entity, e', hget, hfold1, rfl⟩ | ⟨hget, e', hfold1, rfl⟩⟩
      · rw [hfsk]
        dsimp only
        rw [if_pos (by simpa using hnull)]
        exact ih m1 m hrest
      · have hseen : DataSource.keyInSeen (m0.map (·.1))
            (DataSource.rowGet row pkName) = true := by
          cases hks : DataSource.keyInSeen (m0.map (·.1)) (DataSource.rowGet row pkName)
          · exact absurd ((mapGet_none_iff m0 _).mpr hks) (by simp [hget])
          · rfl
        rw [hfsk]
        dsimp only
        rw [if_neg (by simpa using hnull), if_pos hseen]
        have hkeys := mapSet_keys_of_found m0 (DataSource.rowGet row pkName) e' entity hget
        rw [ih _ m hrest, hkeys]
      · have hseen : DataSource.keyInSeen (m0.map (·.1))
            (DataSource.rowGet row pkName) = false := (mapGet_none_iff m0 _).mp hget
        rw [hfsk]
        dsimp only
        rw [if_neg (by simpa using hnull), if_neg (by simp [hseen])]
        rw [ih _ m hrest]
        simp

/-- First-seen key lists are duplicate-free and fresh relative to the seen
prefix when the rows carry primitive keys. -/
theorem firstSeenKeys_nodup (pkName : String) :
    ∀ (rows : List (List (String × JSVal))),
    (∀ row ∈ rows, isPrimitive (DataSource.rowGet row pkName) = true) →
    ∀ seen : List JSVal,
    (DataSource.firstSeenKeys pkName seen rows).Nodup ∧
    ∀ k ∈ DataSource.firstSeenKeys pkName seen rows,
      DataSource.keyInSeen seen k = false := by
  intro rows
  induction rows with
  | nil =>
      intro _ seen
      exact ⟨List.nodup_nil, fun k hk => absurd hk (by simp [DataSource.firstSeenKeys])⟩
  | cons row rest ih =>
      intro hprim seen
      have hfsk : DataSource.firstSeenKeys pkName seen (row :: rest) =
          (let pk := DataSource.rowGet row pkName
           if isUndef pk ∨ isNull pk then DataSource.firstSeenKeys pkName seen rest
           else if DataSource.keyInSeen seen pk then
             DataSource.firstSeenKeys pkName seen rest
           else pk :: DataSource.firstSeenKeys pkName (seen ++ [pk]) rest) := rfl
      have ihrest := ih fun r hr => hprim r (List.mem_cons_of_mem _ hr)
      rw [hfsk]
      dsimp only
      split_ifs with h1 h2
      · exact ihrest seen
      · exact ihrest seen
      · have hprow := hprim row (List.mem_cons_self _ _)
        obtain ⟨htail, hfresh⟩ := ihrest (seen ++ [DataSource.rowGet row pkName])
        constructor
        · rw [List.nodup_cons]
          refine ⟨fun hmem => ?_, htail⟩
          have := hfresh _ hmem
          unfold DataSource.keyInSeen at this
          rw [List.any_append] at this
          simp only [Bool.or_eq_false_iff] at this
          have hself := this.2
          simp only [List.any_cons, List.any_nil, Bool.or_false] at hself
          rw [strictEq_self_of_prim _ hprow] at hself
          cases hself
        · intro k hk
          rcases List.mem_cons.mp hk with rfl | hk'
          · simpa using h2
          · have := hfresh _ hk'
            unfold DataSource.keyInSeen at this ⊢
            rw [List.any_append] at this
            exact (Bool.or_eq_false_iff.mp this).1

theorem scalarPropsEq_refl (columns : List ColumnMeta) (a : JSVal) :
    DataSource.scalarPropsEq columns a a := fun _ _ => rfl

theorem scalarPropsEq_trans (columns : List ColumnMeta) (a b c : JSVal)
    (h1 : DataSource.scalarPropsEq columns a b) (h2 : DataSource.scalarPropsEq columns b c) :
    DataSource.scalarPropsEq columns a c :=
  fun col hc => (h1 col hc).trans (h2 col hc)

/-- The relations loop leaves every registered scalar column property of the
root entity unchanged when relation names avoid column property names. -/
theorem relsFold_scalarPropsEq (storage : Storage) (target : Nat)
    (row : List (String × JSVal)) (columns : List ColumnMeta) (relations : List String)
    (e e' : JSVal)
    (hdisj : ∀ rn ∈ relations, ∀ c ∈ columns, rn ≠ c.propertyName)
    (hfold : relations.foldlM (DataSource.processRelationForRow storage target row) e =
      some e') :
    DataSource.scalarPropsEq columns e' e :=
  fun c hc => relsFold_getProp_notin storage target row relations e e' c.propertyName
    (fun rn hrn => hdisj rn hrn c hc) hfold

theorem strictEq_undef_or_null_left (a b : JSVal)
    (ha : isUndef a = true ∨ isNull a = true)
    (hb : isUndef b = false) (hb' : isNull b = false) :
    strictEq a b = false := by
  cases hs : strictEq a b
  · rfl
  · obtain ⟨-, rfl⟩ := (strictEq_eq_true_iff a b).mp hs
    rcases ha with ha | ha
    · rw [ha] at hb; cases hb
    · rw [ha] at hb'; cases hb'

/-- First occurrence wins: each final map entry's registered scalar column
properties equal those decoded from the first row carrying its key; entries
already present keep the scalars of their original map entry. -/
theorem foldRows_scalar (storage : Storage) (target : Nat) (columns : List ColumnMeta)
    (relations : List String) (pkName : String)
    (hdisj : ∀ rn ∈ relations, ∀ c ∈ columns, rn ≠ c.propertyName) :
    ∀ (rows : List (List (String × JSVal))) (m0 m : List (JSVal × JSVal)),
    List.foldlM (DataSource.mapResultsRow storage target columns relations pkName) m0 rows =
      some m →
    (∀ row ∈ rows, isPrimitive (DataSource.rowGet row pkName) = true) →
    (∀ kv ∈ m0, isPrimitive kv.1 = true ∧ isUndef kv.1 = false ∧ isNull kv.1 = false) →
    ∀ kv ∈ m,
      (∃ kv0 ∈ m0, kv0.1 = kv.1 ∧ DataSource.scalarPropsEq columns kv.2 kv0.2) ∨
      (DataSource.keyInSeen (m0.map (·.1)) kv.1 = false ∧
        ∃ row, DataSource.firstRowWith pkName kv.1 rows = some row ∧
          DataSource.scalarPropsEq columns kv.2
            (DataSource.buildRootEntity storage target columns relations row)) := by
  intro rows
  induction rows with
  | nil =>
      intro m0 m hfold _ hm0 kv hkv
      rw [List.foldlM_nil] at hfold
      cases Option.some.inj hfold
      exact Or.inl ⟨kv, hkv, rfl, scalarPropsEq_refl columns kv.2⟩
  | cons row rest ih =>
      intro m0 m hfold hprim hm0 kv hkv
      rw [List.foldlM_cons] at hfold
      obtain ⟨m1, hstep, hrest⟩ := Option.bind_eq_some.mp hfold
      have hprimrest : ∀ r ∈ rest, isPrimitive (DataSource.rowGet r pkName) = true :=
        fun r hr => hprim r (List.mem_cons_of_mem _ hr)
      have hkeyfacts : ∀ kv' ∈ m,
          isPrimitive kv'.1 = true ∧ isUndef kv'.1 = false ∧ isNull kv'.1 = false := by
        refine foldRows_keyFacts storage target columns relations pkName rest m1 m hrest
          hprimrest ?_
        rcases mapResultsRow_some storage target columns relations pkName m0 m1 row hstep
          with ⟨-, rfl⟩ | ⟨hnull, ⟨entity, e', hget, hfold1, rfl⟩ | ⟨hget, e', hfold1, rfl⟩⟩
        · exact hm0
        · intro kv' hkv'
          rcases mapSet_mem _ _ _ _ hkv' with rfl | hkv''
          · refine ⟨hprim row (List.mem_cons_self _ _), ?_, ?_⟩
            · cases hu : isUndef (DataSource.rowGet row pkName)
              · rfl
              · exact absurd (Or.inl hu) hnull
            · cases hu : isNull (DataSource.rowGet row pkName)
              · rfl
              · exact absurd (Or.inr hu) hnull
          · exact hm0 kv' hkv''
        · intro kv' hkv'
          rcases List.mem_append.mp hkv' with hkv'' | hkv''
          · exact hm0 kv' hkv''
          · rw [List.mem_singleton.mp hkv'']
            refine ⟨hprim row (List.mem_cons_self _ _), ?_, ?_⟩
            · cases hu : isUndef (DataSource.rowGet row pkName)
              · rfl
              · exact absurd (Or.inl hu) hnull
            · cases hu : isNull (DataSource.rowGet row pkName)
              · rfl
              · exact absurd (Or.inr hu) hnull
      have hkvfacts := hkeyfacts kv hkv
      have hliftRow : ∀ hne : strictEq (DataSource.rowGet row pkName) kv.1 = false,
          DataSource.firstRowWith pkName kv.1 (row :: rest) =
            DataSource.firstRowWith pkName kv.1 rest := by
        intro hne
        unfold DataSource.firstRowWith
        rw [List.find?_cons, hne]
      rcases mapResultsRow_some storage target columns relations pkName m0 m1 row hstep
        with ⟨hnull, rfl⟩ | ⟨hnull, ⟨entity, e', hget, hfold1, rfl⟩ | ⟨hget, e', hfold1, rfl⟩⟩
      · -- null primary key: the row is skipped
        rcases ih m1 m hrest hprimrest hm0 kv hkv with h | ⟨hseen, r, hr, hsc⟩
        · exact Or.inl h
        · refine Or.inr ⟨hseen, r, ?_, hsc⟩
          rw [hliftRow (strictEq_undef_or_null_left _ _ hnull hkvfacts.2.1 hkvfacts.2.2)]
          exact hr
      · -- known key: the stored entity is updated in place
        have hm1facts : ∀ kv' ∈ DataSource.mapSet m0 (DataSource.rowGet row pkName) e',
            isPrimitive kv'.1 = true ∧ isUndef kv'.1 = false ∧ isNull kv'.1 = false := by
          intro kv' hkv'
          rcases mapSet_mem _ _ _ _ hkv' with rfl | hkv''
          · refine ⟨hprim row (List.mem_cons_self _ _), ?_, ?_⟩
            · cases hu : isUndef (DataSource.rowGet row pkName)
              · rfl
              · exact absurd (Or.inl hu) hnull
            · cases hu : isNull (DataSource.rowGet row pkName)
              · rfl
              · exact absurd (Or.inr hu) hnull
          · exact hm0 kv' hkv''
        have hkeys := mapSet_keys_of_found m0 (DataSource.rowGet row pkName) e' entity hget
        have hseenpk : DataSource.keyInSeen (m0.map (·.1))
            (DataSource.rowGet row pkName) = true := by
          cases hks : DataSource.keyInSeen (m0.map (·.1)) (DataSource.rowGet row pkName)
          · exact absurd ((mapGet_none_iff m0 _).mpr hks) (by simp [hget])
          · rfl
        rcases ih _ m hrest hprimrest hm1facts kv hkv with ⟨kv0, hkv0, hkeq, hsc⟩ |
          ⟨hseen, r, hr, hsc⟩
        · rcases mapSet_mem _ _ _ _ hkv0 with rfl | hkv0'
          · obtain ⟨k0, hk0mem, hk0eq⟩ := mapGet_mem _ _ _ hget
            have hk0 : k0 = DataSource.rowGet row pkName :=
              ((strictEq_eq_true_iff _ _).mp hk0eq).2
            refine Or.inl ⟨(k0, entity), hk0mem, ?_, ?_⟩
            · rw [hk0]; exact hkeq
            · exact scalarPropsEq_trans columns _ _ _ hsc
                (relsFold_scalarPropsEq storage target row columns relations entity e'
                  hdisj hfold1)
          · exact Or.inl ⟨kv0, hkv0', hkeq, hsc⟩
        · rw [hkeys] at hseen
          refine Or.inr ⟨hseen, r, ?_, hsc⟩
          have hne : strictEq (DataSource.rowGet row pkName) kv.1 = false := by
            cases hs : strictEq (DataSource.rowGet row pkName) kv.1
            · rfl
            · obtain ⟨-, heq⟩ := (strictEq_eq_true_iff _ _).mp hs
              rw [← heq] at hseen
              rw [hseenpk] at hseen
              cases hseen
          rw [hliftRow hne]
          exact hr
      · -- fresh key: a new entity is appended
        have hseenpk : DataSource.keyInSeen (m0.map (·.1))
            (DataSource.rowGet row pkName) = false := (mapGet_none_iff m0 _).mp hget
        have hm1facts : ∀ kv' ∈ m0 ++ [(DataSource.rowGet row pkName, e')],
            isPrimitive kv'.1 = true ∧ isUndef kv'.1 = false ∧ isNull kv'.1 = false := by
          intro kv' hkv'
          rcases List.mem_append.mp hkv' with hkv'' | hkv''
          · exact hm0 kv' hkv''
          · rw [List.mem_singleton.mp hkv'']
            refine ⟨hprim row (List.mem_cons_self _ _), ?_, ?_⟩
            · cases hu : isUndef (DataSource.rowGet row pkName)
              · rfl
              · exact absurd (Or.inl hu) hnull
            · cases hu : isNull (DataSource.rowGet row pkName)
              · rfl
              · exact absurd (Or.inr hu) hnull
        rcases ih _ m hrest hprimrest hm1facts kv hkv with ⟨kv0, hkv0, hkeq, hsc⟩ |
          ⟨hseen, r, hr, hsc⟩
        · rcases List.mem_append.mp hkv0 with hkv0' | hkv0'
          · exact Or.inl ⟨kv0, hkv0', hkeq, hsc⟩
          · rw [List.mem_singleton.mp hkv0'] at hkeq hsc
            refine Or.inr ⟨by rw [← hkeq]; exact hseenpk, row, ?_, ?_⟩
            · unfold DataSource.firstRowWith
              rw [List.find?_cons,
                  show strictEq (DataSource.rowGet row pkName) kv.1 = true from by
                    rw [← hkeq]
                    exact strictEq_self_of_prim _ (hprim row (List.mem_cons_self _ _))]
            · exact scalarPropsEq_trans columns _ _ _ hsc
                (relsFold_scalarPropsEq storage target row columns relations _ e'
                  hdisj hfold1)
        · rw [List.map_append] at hseen
          unfold DataSource.keyInSeen at hseen
          rw [List.any_append] at hseen
          obtain ⟨hseen1, hseen2⟩ := Bool.or_eq_false_iff.mp hseen
          refine Or.inr ⟨hseen1, r, ?_, hsc⟩
          have hne : strictEq (DataSource.rowGet row pkName) kv.1 = false := by
            simpa using hseen2
          rw [hliftRow hne]
          exact hr

/-- C4: for a flat row set produced by a join against to-many relations
(rows carrying primitive primary-key alias values, requested relation names
distinct from registered column property names), materialization yields
exactly one root object per distinct non-null primary-key value, in
first-seen row order; each root's registered scalar columns are decoded from
the first row carrying its key; every requested to-many relation property is
an array holding at most one element per distinct related primary-key value;
and the AfterLoad log holds one entry per unique root per listener
(`data-source.ts:712-807`). -/
theorem claim4_join_materialization (storage : Storage) (target : Nat)
    (relations : List String) (rows : List (List (String × JSVal)))
    (es : List JSVal) (log : List (JSVal × String))
    (columns : List ColumnMeta) (pkColumn : ColumnMeta)
    (hcols : columns = storage.findColumns target)
    (hpkcol : (columns.find? (·.options.primary) <|> columns.head?) = some pkColumn)
    (hres : DataSource.mapResults storage target rows relations = some (es, log))
    (hprim : ∀ row ∈ rows,
      isPrimitive (DataSource.rowGet row (colSqlName pkColumn)) = true)
    (hdisj : ∀ rn ∈ relations, ∀ c ∈ columns, rn ≠ c.propertyName) :
    DataSource.materializationOk storage target relations rows es log columns pkColumn := by
  subst hcols
  unfold DataSource.mapResults at hres
  by_cases hemp : rows.isEmpty = true
  · rw [if_pos hemp] at hres
    have hrows : rows = [] := by
      cases rows with
      | nil => rfl
      | cons r rs => cases hemp
    subst hrows
    have h := Option.some.inj hres
    rw [Prod.ext_iff] at h
    obtain ⟨h1, h2⟩ := h
    dsimp only at h1 h2
    subst h1
    subst h2
    refine ⟨[], rfl, rfl, List.nodup_nil, rfl, ?_, ?_⟩
    · intro kv hkv
      cases hkv
    · intro rn hrn rel rpc _ _ _ _ _ _ kv hkv
      cases hkv
  · rw [if_neg hemp] at hres
    dsimp only at hres
    rw [hpkcol] at hres
    dsimp only at hres
    cases hfold : DataSource.mapResultsFold storage target (storage.findColumns target)
        relations (colSqlName pkColumn) rows with
    | none =>
        rw [hfold] at hres
        cases hres
    | some m =>
        rw [hfold] at hres
        dsimp only at hres
        have hfoldl : List.foldlM (DataSource.mapResultsRow storage target
            (storage.findColumns target) relations (colSqlName pkColumn)) [] rows =
            some m := hfold
        have h := Option.some.inj hres
        rw [Prod.ext_iff] at h
        obtain ⟨h1, h2⟩ := h
        dsimp only at h1 h2
        subst h1
        subst h2
        have hkeys : m.map (·.1) =
            DataSource.firstSeenKeys (colSqlName pkColumn) [] rows := by
          simpa using foldRows_keys storage target (storage.findColumns target) relations
            (colSqlName pkColumn) rows [] m hfoldl
        refine ⟨m, rfl, hkeys, ?_, rfl, ?_, ?_⟩
        · rw [hkeys]
          exact (firstSeenKeys_nodup (colSqlName pkColumn) rows hprim []).1
        · intro kv hkv
          rcases foldRows_scalar storage target (storage.findColumns target) relations
              (colSqlName pkColumn) hdisj rows [] m hfoldl hprim
              (fun kv0 h0 => absurd h0 (List.not_mem_nil kv0)) kv hkv with
            ⟨kv0, hkv0, -, -⟩ | ⟨-, row, hr, hsc⟩
          · exact absurd hkv0 (List.not_mem_nil kv0)
          · exact ⟨row, hr, hsc⟩
        · intro rn hrn rel rpc hfind hkind hrpc huniq hid hprimrow kv hkv
          refine foldRows_entries storage target (storage.findColumns target) relations
            (colSqlName pkColumn) (fun kv => DataSource.arrFact rn rpc.propertyName kv.2)
            rows [] m hfoldl ?_ ?_
            (fun kv0 h0 => absurd h0 (List.not_mem_nil kv0)) kv hkv
          · intro row hrow k e e' hfold1 hfact
            exact relsFold_arrFact storage target row rn rel rpc hfind hkind hrpc huniq hid
              (hprimrow row hrow) relations e e' hfold1 hfact
          · intro row hrow e' hnull hfold1
            exact relsFold_arrFact storage target row rn rel rpc hfind hkind hrpc huniq hid
              (hprimrow row hrow) relations _ e' hfold1
              ⟨[], getProp_buildRootEntity_toMany storage target
                    (storage.findColumns target) relations row rn rel hrn hfind hkind,
                fun x hx => absurd hx (List.not_mem_nil x), List.nodup_nil⟩

theorem claim4_join_materialization_witness :
    DataSource.materializationOk demoStorage 1 ["posts"] claim4Rows [claim4Root]
      [(.num 1, "afterLoadHook")] [colUserId, colUserName] colUserId :=
  claim4_join_materialization demoStorage 1 ["posts"] claim4Rows [claim4Root]
    [(.num 1, "afterLoadHook")] [colUserId, colUserName] colUserId rfl rfl rfl
    (by decide) (by decide)

/-- C9: for every callback run through the transaction wrapper, a completing
callback yields BEGIN, the callback's statements, then COMMIT — in that
order — with the callback's result returned; a throwing callback yields
BEGIN, the callback's statements, then ROLLBACK, the original error is
re-thrown unchanged, and the wrapper never issues COMMIT. -/
theorem claim9_transaction_wrapper (stmts : List String) (outcome : Except String Nat) :
    (∀ r, outcome = .ok r →
      DataSource.transactionRun (stmts, outcome) =
        ("BEGIN TRANSACTION" :: stmts ++ ["COMMIT"], .ok r)) ∧
    (∀ e, outcome = .error e →
      DataSource.transactionRun (stmts, outcome) =
        ("BEGIN TRANSACTION" :: stmts ++ ["ROLLBACK"], .error e) ∧
      ("COMMIT" ∉ stmts →
        "COMMIT" ∉ (DataSource.transactionRun (stmts, outcome)).1)) := by
  constructor
  · intro r h
    subst h
    rfl
  · intro e h
    subst h
    refine ⟨rfl, fun hnot hmem => ?_⟩
    have hfst : (DataSource.transactionRun (stmts, (Except.error e : Except String Nat))).1 =
        "BEGIN TRANSACTION" :: stmts ++ ["ROLLBACK"] := rfl
    rw [hfst] at hmem
    rcases List.mem_cons.mp hmem with h1 | h1
    · exact absurd h1 (by decide)
    · rcases List.mem_append.mp h1 with h2 | h2
      · exact hnot h2
      · exact absurd (List.mem_singleton.mp h2) (by decide)

/-- C9 witness: the wrapper evaluated on a concrete completing callback and a
concrete throwing callback. -/
theorem claim9_transaction_wrapper_witness :
    DataSource.transactionRun (["INSERT INTO user (name) VALUES (?)"],
        (.ok 7 : Except String Nat)) =
      (["BEGIN TRANSACTION", "INSERT INTO user (name) VALUES (?)", "COMMIT"], .ok 7) ∧
    DataSource.transactionRun (["INSERT INTO user (name) VALUES (?)"],
        (.error "boom" : Except String Nat)) =
      (["BEGIN TRANSACTION", "INSERT INTO user (name) VALUES (?)", "ROLLBACK"],
       .error "boom") ∧
    "COMMIT" ∉ (DataSource.transactionRun (["INSERT INTO user (name) VALUES (?)"],
        (.error "boom" : Except String Nat))).1 := by
  have h1 := (claim9_transaction_wrapper ["INSERT INTO user (name) VALUES (?)"]
    (.ok 7)).1 7 rfl
  have h2 := (claim9_transaction_wrapper ["INSERT INTO user (name) VALUES (?)"]
    (.error "boom")).2 "boom" rfl
  exact ⟨h1, h2.1, h2.2 (by decide)⟩

end NativeQL
